import Mathlib

/-!
Shallow embedding of the TorrentMix gateway core
(`src/rust/crates/gateway/src/lib.rs`): backend catalog loading and
selection, the qBittorrent session manager, the proxy forwarding retry
protocol, header sanitization, body-size ceilings, and the atomic
configuration-update path.  Pure Rust functions become Lean functions;
network and filesystem effects are supplied as explicit oracle values;
the shared mutable state (catalog + session cells) is passed explicitly.
-/

set_option autoImplicit false

namespace TorrentMix

/-! ## Character-level string helpers

Rust `str` operations (`trim`, `split`, `to_ascii_lowercase`,
`trim_start_matches`, `ends_with`, `starts_with`, `contains`) are modelled
character-wise over `String.data` so that all definitions reduce in the
kernel. -/

/-- List of characters with leading whitespace removed. -/
def dropWs (l : List Char) : List Char := l.dropWhile Char.isWhitespace

/-- Model of Rust `str::trim`: whitespace removed from both ends. -/
def strTrim (s : String) : String :=
  String.mk ((dropWs ((dropWs s.data).reverse)).reverse)

/-- Model of Rust `str::to_ascii_lowercase` (header names are ASCII). -/
def strLower (s : String) : String := String.mk (s.data.map Char.toLower)

/-- Model of Rust `char`-pattern `str::split`: split on every occurrence of `c`. -/
def splitCharAux (c : Char) : List Char → List Char → List (List Char)
  | [], cur => [cur.reverse]
  | x :: xs, cur =>
    if x = c then cur.reverse :: splitCharAux c xs [] else splitCharAux c xs (x :: cur)

/-- String-level wrapper for `splitCharAux`. -/
def splitChar (c : Char) (s : String) : List String :=
  (splitCharAux c s.data []).map String.mk

/-- Model of Rust `str::splitn(2, c)`: the part before the first `c`, and
the remainder after it when `c` occurs. -/
def splitFirst (c : Char) : List Char → List Char × Option (List Char)
  | [] => ([], none)
  | x :: xs =>
    if x = c then ([], some xs)
    else
      let r := splitFirst c xs
      (x :: r.1, r.2)

/-- Model of Rust `str::trim_start_matches('/')`: removes every leading slash. -/
def trimLeadingSlashes (s : String) : String :=
  String.mk (s.data.dropWhile (fun ch => ch = '/'))

/-- Boolean test that `pre` is an initial segment of `l`. -/
def listStarts : List Char → List Char → Bool
  | [], _ => true
  | _ :: _, [] => false
  | a :: as, b :: bs => a = b && listStarts as bs

/-- Model of Rust `str::starts_with` for string patterns. -/
def strStarts (s pat : String) : Bool := listStarts pat.data s.data

/-- Model of Rust `str::ends_with` for string patterns. -/
def strEnds (s pat : String) : Bool := listStarts pat.data.reverse s.data.reverse

/-- Boolean test that `needle` occurs contiguously inside `hay`. -/
def listInfix (needle : List Char) : List Char → Bool
  | [] => listStarts needle []
  | x :: xs => listStarts needle (x :: xs) || listInfix needle xs

/-- Model of Rust `str::contains` for string patterns. -/
def strContains (s pat : String) : Bool := listInfix pat.data s.data

/-- Model of Rust `Vec::join("; ")` on a list of strings. -/
def joinSemi : List String → String
  | [] => ""
  | [x] => x
  | x :: y :: xs => x ++ "; " ++ joinSemi (y :: xs)

/-! ## Association-list maps

`HashMap<String, V>` values keyed by server id are modelled as association
lists in insertion order (the code never overwrites an existing key:
duplicates are rejected before insertion). -/

/-- First value bound to key `k`, if any. -/
def alookup {α : Type} (k : String) : List (String × α) → Option α
  | [] => none
  | (k', v) :: rest => if k' = k then some v else alookup k rest

/-! ## URL model

The `url::Url` parser is an external dependency; parsed URLs are modelled
structurally and the parser itself is a parameter `parseUrl` of every
definition that calls `Url::parse`.  The fact `parseUrl "" = none`
(the `url` crate rejects the empty string) is taken as a hypothesis where
a claim needs it. -/

deriving instance DecidableEq for Except

/-- Structural model of a parsed `url::Url`. -/
structure UrlM where
  scheme : String
  host : Option String
  port : Option Nat
  path : String
  query : Option String
  deriving DecidableEq, Repr

/-- Model of `format_host_only`: brackets a bare IPv6 host literal. -/
def format_host_only (host : String) : String :=
  if strContains host ":" && !strStarts host "[" then "[" ++ host ++ "]" else host

/-- Origin computation from `Catalog::load`:
`scheme://host[:port]` with IPv6 literals bracketed. -/
def mkOrigin (scheme host : String) (port : Option Nat) : String :=
  match port with
  | some p => scheme ++ "://" ++ format_host_only host ++ ":" ++ toString p
  | none => scheme ++ "://" ++ format_host_only host

/-! ## Data model -/

/-- Model of `BackendType`: Kind-A is `qbit`, Kind-B is `trans`. -/
inductive BackendType where
  | qbit
  | trans
  deriving DecidableEq, Repr

instance : Inhabited BackendType := ⟨BackendType.qbit⟩

/-- Model of `ServerConfig` (all string fields already deserialized). -/
structure ServerConfig where
  id : String
  name : String
  kind : BackendType
  base_url : String
  username : String
  password : String
  deriving DecidableEq, Repr

instance : Inhabited ServerConfig := ⟨⟨"", "", BackendType.qbit, "", "", ""⟩⟩

/-- Model of `ConfigFile`: the parsed durable configuration document. -/
structure ConfigFile where
  default_server_id : String
  servers : List ServerConfig
  deriving DecidableEq, Repr

/-- Model of `ServerEntry`: a validated config plus parsed base URL and origin. -/
structure ServerEntry where
  cfg : ServerConfig
  base : UrlM
  origin : String
  deriving DecidableEq, Repr

/-- Model of `Catalog`. -/
structure Catalog where
  default_id : String
  servers : List (String × ServerEntry)
  order : List String
  deriving DecidableEq, Repr

/-! ## Catalog loading (`Catalog::load`)

The Rust function reads a file and JSON-decodes it before validating; file
and decoder are external, so the model starts from the decoded
`ConfigFile`.  The per-server validation loop is `loadLoop`. -/

/-- Per-server validation loop of `Catalog::load`, carrying the
accumulated id-keyed map and the id order. -/
def loadLoop (parseUrl : String → Option UrlM) :
    List ServerConfig → List (String × ServerEntry) → List String →
    Except String (List (String × ServerEntry) × List String)
  | [], acc, ord => Except.ok (acc, ord)
  | s :: rest, acc, ord =>
    let id := strTrim s.id
    let name0 := strTrim s.name
    let base_url := strTrim s.base_url
    let username := strTrim s.username
    let password := strTrim s.password
    if id = "" then Except.error "server.id is required"
    else
      let name := if name0 = "" then id else name0
      if base_url = "" then Except.error "baseUrl is required"
      else if (alookup id acc).isSome then Except.error "duplicate server id"
      else
        match parseUrl base_url with
        | none => Except.error "invalid baseUrl"
        | some base =>
          if base.scheme = "" ∨ base.host = none then Except.error "invalid baseUrl"
          else
            let host := base.host.getD ""
            let origin := mkOrigin base.scheme host base.port
            let entry : ServerEntry :=
              ⟨⟨id, name, s.kind, base_url, username, password⟩, base, origin⟩
            loadLoop parseUrl rest (acc ++ [(id, entry)]) (ord ++ [id])

/-- Model of `Catalog::load` on an already-decoded configuration document. -/
def Catalog.load (parseUrl : String → Option UrlM) (cfg : ConfigFile) :
    Except String Catalog :=
  if cfg.servers = [] then Except.error "config.servers is empty"
  else
    let dsid := strTrim cfg.default_server_id
    match loadLoop parseUrl cfg.servers [] [] with
    | Except.error e => Except.error e
    | Except.ok (servers, order) =>
      if dsid = "" then Except.ok ⟨order.headD "", servers, order⟩
      else if (alookup dsid servers).isSome then Except.ok ⟨dsid, servers, order⟩
      else Except.error "defaultServerId not found in servers"

/-- Model of `Catalog::selected_id`: the selection cookie value, if it
names a known entry after trimming, else the default id. -/
def Catalog.selected_id (cat : Catalog) (jar : Option String) : String :=
  match jar with
  | some v =>
    let id := strTrim v
    if id ≠ "" ∧ (alookup id cat.servers).isSome then id else cat.default_id
  | none => cat.default_id

/-- Model of `Catalog::pick`; `none` models the `expect` panic on a
lookup miss. -/
def Catalog.pick (cat : Catalog) (jar : Option String) : Option ServerEntry :=
  alookup (cat.selected_id jar) cat.servers

/-! ## Path joining and target URL (`join_path`, `build_target_url`) -/

/-- Model of `join_path`: slash-aware concatenation of the base path and
the request path. -/
def join_path (a b : String) : String :=
  let aslash := strEnds a "/"
  let bslash := strStarts b "/"
  match aslash, bslash with
  | true, true => a ++ trimLeadingSlashes b
  | false, false => if a = "" then "/" ++ b else a ++ "/" ++ b
  | _, _ => a ++ b

/-- Model of `build_target_url`: the entry's base URL with path replaced by
the join of the base path and the request path, and the request query
copied verbatim. -/
def build_target_url (base : UrlM) (reqPath : String) (reqQuery : Option String) : UrlM :=
  let basePath := if base.path = "/" then "" else base.path
  { base with path := join_path basePath reqPath, query := reqQuery }

/-! ## Header maps and sanitization

`http::HeaderMap` is modelled as a list of `(name, value)` pairs in which
names are stored in their canonical lowercase form (the invariant of the
real `HeaderMap`).  `HeaderMap::get` returns the first value for a name;
`HeaderMap::remove` removes every value for the name.
`HeaderName::from_bytes` is an external validator, modelled by the
parameter `validName`. -/

/-- First value of a header, as `HeaderMap::get`. -/
def header_get (hs : List (String × String)) (name : String) : Option String :=
  (hs.find? (fun p => p.1 = name)).map (fun p => p.2)

/-- The fixed hop-by-hop header set of `remove_hop_headers`. -/
def hopHeaders : List String :=
  ["connection", "proxy-connection", "keep-alive", "proxy-authenticate",
   "proxy-authorization", "te", "trailer", "trailers", "transfer-encoding", "upgrade"]

/-- Comma-separated tokens of the `Connection` header, trimmed and
lowercased, as read by `remove_hop_headers`. -/
def connTokens (hs : List (String × String)) : List String :=
  match header_get hs "connection" with
  | none => []
  | some v => (splitChar ',' v).map (fun t => strLower (strTrim t))

/-- Model of `remove_hop_headers`: removes the `Connection`-named tokens
(those that parse as header names) and then the fixed hop-by-hop set. -/
def remove_hop_headers (validName : String → Bool)
    (hs : List (String × String)) : List (String × String) :=
  (hs.filter (fun p => !((connTokens hs).filter validName).contains p.1)).filter
    (fun p => !hopHeaders.contains p.1)

/-- Model of `sanitize_response_headers`: hop-by-hop removal plus
unconditional removal of `Set-Cookie`. -/
def sanitize_response_headers (validName : String → Bool)
    (hs : List (String × String)) : List (String × String) :=
  (remove_hop_headers validName hs).filter (fun p => p.1 ≠ "set-cookie")

/-! ## Inbound body reading (`read_body_bytes`) -/

/-- Model of `ReadBodyError`. -/
inductive ReadBodyError where
  | tooLarge
  | other
  deriving DecidableEq, Repr

/-- Accumulating loop of `read_body_bytes` over the chunk stream; a chunk
of `Except.error ()` models a failed stream read. -/
def read_body_loop (limit : Nat) :
    List (Except Unit (List Nat)) → List Nat → Except ReadBodyError (List Nat)
  | [], out => Except.ok out
  | c :: rest, out =>
    match c with
    | Except.error _ => Except.error ReadBodyError.other
    | Except.ok chunk =>
      if out.length + chunk.length > limit then Except.error ReadBodyError.tooLarge
      else read_body_loop limit rest (out ++ chunk)

/-- Model of `read_body_bytes`: buffers the body, failing with `tooLarge`
as soon as the accumulated length would exceed `limit`. -/
def read_body_bytes (chunks : List (Except Unit (List Nat))) (limit : Nat) :
    Except ReadBodyError (List Nat) :=
  read_body_loop limit chunks []

/-- The 64 MiB proxied-request body ceiling (`MAX_BODY_BYTES = 64 << 20`). -/
def MAX_BODY_BYTES : Nat := 64 * 1024 * 1024

/-! ## qBittorrent session manager (`QbitSessions::ensure_cookie`)

The session map is an association list from server id to the cell's
cached cookie; a missing key models a not-yet-created cell.  The login
round-trip is an oracle value of type `Except Unit LoginResp`. -/

/-- Model of the backend's response to the login call. -/
structure LoginResp where
  status : Nat
  body : String
  setCookies : List String
  deriving DecidableEq, Repr

/-- The session-cell collection: server id to cached cookie. -/
abbrev Sessions : Type := List (String × Option String)

/-- Result of `ensure_cookie`: the returned token or error, the updated
session map, and whether a login round-trip was performed. -/
structure EnsureOut where
  result : Except String String
  sessions : Sessions
  didLogin : Bool

/-- Model of `extract_set_cookie_pairs`: for each `Set-Cookie` value keep
the `name=value` pair before the first `;`, skipping empty pairs and
empty names. -/
def extract_set_cookie_pairs (values : List String) : List String :=
  values.filterMap (fun raw =>
    let first := (splitCharAux ';' raw.data []).headD []
    let pair := strTrim (String.mk first)
    if pair = "" then none
    else
      let split := splitFirst '=' pair.data
      let name := strTrim (String.mk split.1)
      let value := strTrim (String.mk (split.2.getD []))
      if name = "" then none
      else some (name ++ "=" ++ value))

/-- Login branch of `ensure_cookie`: validates the login response, joins
the cookie pairs, and caches the token. -/
def ensureLogin (sessions : Sessions) (id : String)
    (login : Except Unit LoginResp) : EnsureOut :=
  match login with
  | Except.error _ => ⟨Except.error "qB login request failed", sessions, true⟩
  | Except.ok resp =>
    if resp.status ≠ 200 then
      ⟨Except.error "qB login failed: status", sessions, true⟩
    else if !strContains resp.body "Ok" then
      ⟨Except.error "qB login failed: body", sessions, true⟩
    else
      let pairs := extract_set_cookie_pairs resp.setCookies
      if pairs = [] then ⟨Except.error "qB login did not set cookies", sessions, true⟩
      else
        let cookie := joinSemi pairs
        let updated := sessions.map (fun p => if p.1 = id then (p.1, some cookie) else p)
        ⟨Except.ok cookie, updated, true⟩

/-- Model of `QbitSessions::ensure_cookie`. -/
def ensure_cookie (sessions : Sessions) (entry : ServerEntry) (force : Bool)
    (login : Except Unit LoginResp) : EnsureOut :=
  if entry.cfg.username = "" ∧ entry.cfg.password = "" then
    ⟨Except.error "qBittorrent server requires username/password in config", sessions, false⟩
  else
    let id := entry.cfg.id
    let sessions1 : Sessions :=
      if (alookup id sessions).isSome then sessions else sessions ++ [(id, none)]
    match (alookup id sessions1).getD none, force with
    | some c, false => ⟨Except.ok c, sessions1, false⟩
    | some _, true => ensureLogin sessions1 id login
    | none, _ => ensureLogin sessions1 id login

/-! ## Gateway state and the proxy handler (`handle_proxy`)

`handle_proxy` reads the catalog and the session map, and performs up to
two upstream forwards and up to two `ensure_cookie` calls.  The upstream's
behaviour is an oracle: the login responses for the two possible
`ensure_cookie` calls and the responses to the two possible forwards.
A trace records every `ensure_cookie` call (its `force` flag) and every
forward (the cookie and body sent), so that retry counts are provable. -/

/-- The gateway's shared mutable state: live catalog plus session cells. -/
structure GwState where
  catalog : Catalog
  sessions : Sessions
  deriving DecidableEq, Repr

/-- Model of an upstream `reqwest::Response` head (the body is streamed
through unchanged and is not modelled). -/
structure UpResp where
  status : Nat
  headers : List (String × String)
  deriving DecidableEq, Repr

/-- Response head returned to the gateway's caller. -/
structure GResp where
  status : Nat
  headers : List (String × String)
  deriving DecidableEq, Repr

/-- Trace of a `handle_proxy` run: the `force` flag of each
`ensure_cookie` call in order, and the `(cookie, body)` of each forward
in order. -/
structure PTrace where
  ensures : List Bool
  forwards : List (Option String × List Nat)
  deriving DecidableEq, Repr

/-- Oracle for one `handle_proxy` run: outcomes of the first and second
login round-trips and of the first and second upstream forwards. -/
structure ProxyOracle where
  login1 : Except Unit LoginResp
  login2 : Except Unit LoginResp
  fwd1 : Except String UpResp
  fwd2 : Except String UpResp

/-- Full outcome of a `handle_proxy` run. -/
structure ProxyOut where
  resp : GResp
  sessions : Sessions
  trace : PTrace
  entry : ServerEntry
  target : UrlM
  deriving DecidableEq, Repr

/-- Initial authentication step of `handle_proxy`: for a Kind-A entry it
calls `ensure_cookie` with `force = false` and ignores a failure (the
cookie stays absent); for Kind-B nothing happens.  Returns the cookie to
send, the session map, and the `ensure_cookie` calls made. -/
def proxyAuthStep (entry : ServerEntry) (sessions : Sessions)
    (login1 : Except Unit LoginResp) : Option String × Sessions × List Bool :=
  if entry.cfg.kind = BackendType.qbit then
    let eo := ensure_cookie sessions entry false login1
    (match eo.result with
     | Except.ok v => some v
     | Except.error _ => none, eo.sessions, [false])
  else (none, sessions, [])

/-- Forwarding phase of `handle_proxy` after the body has been read: the
first forward, and on a 403 from a Kind-A backend the single forced
re-login and the single retried forward. -/
def proxyForwardPhase (validName : String → Bool) (entry : ServerEntry)
    (sessions : Sessions) (body : List Nat) (orc : ProxyOracle) :
    GResp × Sessions × PTrace :=
  let step1 := proxyAuthStep entry sessions orc.login1
  let cookie0 := step1.1
  let sess1 := step1.2.1
  let ens1 := step1.2.2
  match orc.fwd1 with
  | Except.error _ => (⟨502, []⟩, sess1, ⟨ens1, [(cookie0, body)]⟩)
  | Except.ok r1 =>
    if entry.cfg.kind = BackendType.qbit ∧ r1.status = 403 then
      let eo2 := ensure_cookie sess1 entry true orc.login2
      let cookie1 :=
        match eo2.result with
        | Except.ok v => some v
        | Except.error _ => cookie0
      match orc.fwd2 with
      | Except.error _ =>
        (⟨502, []⟩, eo2.sessions,
          ⟨ens1 ++ [true], [(cookie0, body), (cookie1, body)]⟩)
      | Except.ok r2 =>
        (⟨r2.status, sanitize_response_headers validName r2.headers⟩,
          eo2.sessions,
          ⟨ens1 ++ [true], [(cookie0, body), (cookie1, body)]⟩)
    else
      (⟨r1.status, sanitize_response_headers validName r1.headers⟩,
        sess1, ⟨ens1, [(cookie0, body)]⟩)

/-- Body-read plus forwarding phase of `handle_proxy`: a too-large body
yields 413 (and no forward), a failed body read 400. -/
def proxyRespPhase (validName : String → Bool) (entry : ServerEntry)
    (sessions : Sessions) (chunks : List (Except Unit (List Nat)))
    (orc : ProxyOracle) : GResp × Sessions × PTrace :=
  match read_body_bytes chunks MAX_BODY_BYTES with
  | Except.error ReadBodyError.tooLarge => (⟨413, []⟩, sessions, ⟨[], []⟩)
  | Except.error ReadBodyError.other => (⟨400, []⟩, sessions, ⟨[], []⟩)
  | Except.ok body => proxyForwardPhase validName entry sessions body orc

/-- Model of `handle_proxy`; `none` models the catalog-invariant panic in
`Catalog::pick`.  `validName` models `HeaderName::from_bytes` success and
is threaded to response-header sanitization. -/
def handle_proxy (validName : String → Bool) (st : GwState) (jar : Option String)
    (reqPath : String) (reqQuery : Option String)
    (chunks : List (Except Unit (List Nat))) (orc : ProxyOracle) : Option ProxyOut :=
  (Catalog.pick st.catalog jar).map (fun entry =>
    let ph := proxyRespPhase validName entry st.sessions chunks orc
    ⟨ph.1, ph.2.1, ph.2.2, entry, build_target_url entry.base reqPath reqQuery⟩)

/-! ## Selection endpoint (`handle_select`) -/

/-- Outcome of `handle_select`: status code and the selection cookie set,
if any. -/
structure SelectOut where
  status : Nat
  setCookie : Option String
  deriving DecidableEq, Repr

/-- Model of the HTTP methods distinguished by the router and handlers. -/
inductive HttpMethod where
  | get
  | post
  | other
  deriving DecidableEq, Repr

/-- Model of `handle_select`; `parsedId` is the JSON decoder's result on
the body (an external decoder). -/
def handle_select (cat : Catalog) (method : HttpMethod)
    (chunks : List (Except Unit (List Nat))) (parsedId : Except Unit String) : SelectOut :=
  if method ≠ HttpMethod.post then ⟨405, none⟩
  else
    match read_body_bytes chunks 1024 with
    | Except.error _ => ⟨400, none⟩
    | Except.ok _ =>
      match parsedId with
      | Except.error _ => ⟨400, none⟩
      | Except.ok pid =>
        let id := strTrim pid
        if id = "" then ⟨400, none⟩
        else if (alookup id cat.servers).isSome then
          ⟨200, some ("tm_server_id=" ++ id ++ "; Path=/; HttpOnly; SameSite=Lax; Max-Age=31536000")⟩
        else ⟨400, none⟩

/-! ## Configuration update (`handle_config_update`)

Filesystem and serializer effects are an oracle; the reload of the
just-written file through `Catalog::load` is the oracle's `reload`
field.  The merge/validation loop over the submitted servers is
`mergeLoop`. -/

/-- Model of `ConfigUpdateServer`: the submitted per-server update, with
the tri-state password (`none` = field omitted or null). -/
structure ConfigUpdateServer where
  id : String
  name : String
  kind : BackendType
  base_url : String
  username : String
  password : Option String
  deriving DecidableEq, Repr

/-- Model of `ConfigUpdateRequest`. -/
structure ConfigUpdateRequest where
  default_server_id : String
  servers : List ConfigUpdateServer
  deriving DecidableEq, Repr

/-- Oracle for the effectful steps of `handle_config_update`. -/
structure FsOracle where
  serializeOk : Bool
  writeTmpOk : Bool
  rename1Ok : Bool
  rename2Ok : Bool
  reload : Except Unit Catalog

/-- The password actually stored for a submitted server: the trimmed
submitted value when present, else the previously stored password for its
(trimmed) id, else empty. -/
def mergedPassword (existing : List (String × String)) (s : ConfigUpdateServer) : String :=
  match s.password with
  | some v => strTrim v
  | none => (alookup (strTrim s.id) existing).getD ""

/-- Validation/merge loop of `handle_config_update` over the submitted
servers, carrying the set of already-seen ids and the merged output. -/
def mergeLoop (parseUrl : String → Option UrlM) (existing : List (String × String)) :
    List ConfigUpdateServer → List String → List ServerConfig →
    Except String (List ServerConfig)
  | [], _seen, out => Except.ok out
  | s :: rest, seen, out =>
    let id := strTrim s.id
    if id = "" then Except.error "server.id is required"
    else if seen.contains id then Except.error "duplicate server id"
    else
      let name0 := strTrim s.name
      let name := if name0 = "" then id else name0
      let base_url := strTrim s.base_url
      if base_url = "" then Except.error "server.baseUrl is required"
      else
        match parseUrl base_url with
        | none => Except.error "server.baseUrl is invalid"
        | some u =>
          if u.scheme = "" ∨ u.host = none then Except.error "server.baseUrl is invalid"
          else
            let username := strTrim s.username
            let password := mergedPassword existing s
            if s.kind = BackendType.qbit ∧ username = "" ∧ password = "" then
              Except.error "qBittorrent server requires username/password"
            else
              mergeLoop parseUrl existing rest (seen ++ [id])
                (out ++ [⟨id, name, s.kind, base_url, username, password⟩])

/-- The live catalog's stored passwords, keyed by id, as snapshotted by
`handle_config_update` before merging. -/
def existingPasswords (cat : Catalog) : List (String × String) :=
  cat.servers.map (fun p => (p.1, p.2.cfg.password))

/-- Validation phase of `handle_config_update` after JSON decoding: the
merge loop over the submitted servers, the non-empty check, and the
default-id resolution.  Any failure is a 400. -/
def configMergePhase (parseUrl : String → Option UrlM)
    (existing : List (String × String)) (req : ConfigUpdateRequest) :
    Except Unit (String × List ServerConfig) :=
  match mergeLoop parseUrl existing req.servers [] [] with
  | Except.error _ => Except.error ()
  | Except.ok servers =>
    if servers = [] then Except.error ()
    else
      let dsidRaw := strTrim req.default_server_id
      if dsidRaw = "" then Except.ok ((servers.headD default).id, servers)
      else if servers.any (fun sc => sc.id = dsidRaw) then Except.ok (dsidRaw, servers)
      else Except.error ()

/-- Persistence phase of `handle_config_update`: serialization, the tmp
write, the rename with its single remove-and-retry, and the reload of the
catalog from the just-written file.  Serialization/write/rename failures
are 500s, a reload failure is a 400. -/
def configFsPhase (fs : FsOracle) : Except Nat Catalog :=
  if !fs.serializeOk then Except.error 500
  else if !fs.writeTmpOk then Except.error 500
  else if !fs.rename1Ok ∧ !fs.rename2Ok then Except.error 500
  else
    match fs.reload with
    | Except.error _ => Except.error 400
    | Except.ok cat => Except.ok cat

/-- Model of `handle_config_update`: returns the HTTP status code and the
gateway state after the call.  Every failure path returns the state it
was given; the success path installs the reloaded catalog and discards
all session cells. -/
def handle_config_update (parseUrl : String → Option UrlM) (st : GwState)
    (chunks : List (Except Unit (List Nat)))
    (parsed : Except Unit ConfigUpdateRequest) (fs : FsOracle) : Nat × GwState :=
  match read_body_bytes chunks (64 * 1024) with
  | Except.error ReadBodyError.tooLarge => (413, st)
  | Except.error ReadBodyError.other => (400, st)
  | Except.ok _ =>
    match parsed with
    | Except.error _ => (400, st)
    | Except.ok req =>
      match configMergePhase parseUrl (existingPasswords st.catalog) req with
      | Except.error _ => (400, st)
      | Except.ok _ =>
        match configFsPhase fs with
        | Except.error c => (c, st)
        | Except.ok cat => (200, ⟨cat, []⟩)

/-! ## Routing (`serve` router table) -/

/-- The handler a request path/method is dispatched to by the router. -/
inductive RouteTarget where
  | status
  | select
  | configGet
  | configUpdate
  | proxied
  | staticFallback
  | methodNotAllowed
  deriving DecidableEq, Repr

/-- Model of the router built in `serve`: fixed `__standalone__` routes,
the two wildcard proxy routes (any method), and the static fallback.  A
wildcard route requires a non-empty remainder after its prefix. -/
def route (method : HttpMethod) (path : String) : RouteTarget :=
  if path = "/__standalone__/status" then
    if method = HttpMethod.get then RouteTarget.status else RouteTarget.methodNotAllowed
  else if path = "/__standalone__/select" then
    if method = HttpMethod.post then RouteTarget.select else RouteTarget.methodNotAllowed
  else if path = "/__standalone__/config" then
    if method = HttpMethod.get then RouteTarget.configGet
    else if method = HttpMethod.post then RouteTarget.configUpdate
    else RouteTarget.methodNotAllowed
  else if strStarts path "/api/" ∧ path ≠ "/api/" then RouteTarget.proxied
  else if strStarts path "/transmission/" ∧ path ≠ "/transmission/" then RouteTarget.proxied
  else RouteTarget.staticFallback

/-! ## Derived notions used by the statements -/

/-- The Catalog invariants from the data model: the default id resolves,
`order` agrees with the entry map, ids are unique, and every entry is
keyed by its own id. -/
def Catalog.Valid (cat : Catalog) : Prop :=
  (alookup cat.default_id cat.servers).isSome = true ∧
  cat.order = cat.servers.map Prod.fst ∧
  (cat.servers.map Prod.fst).Nodup ∧
  ∀ p ∈ cat.servers, p.2.cfg.id = p.1

/-- Total number of body bytes carried by a chunk stream. -/
def chunksTotal (chunks : List (Except Unit (List Nat))) : Nat :=
  (chunks.map (fun c => (c.toOption.getD []).length)).sum

/-- The full body carried by a chunk stream. -/
def chunksData (chunks : List (Except Unit (List Nat))) : List Nat :=
  (chunks.map (fun c => c.toOption.getD [])).flatten

/-- A base-URL string accepted by `Catalog::load`: it parses and the
parsed URL has a non-empty scheme and a host. -/
def urlOk (parseUrl : String → Option UrlM) (u : String) : Prop :=
  ∃ m, parseUrl u = some m ∧ m.scheme ≠ "" ∧ m.host ≠ none

/-! ## Concrete fixtures used by witnesses and counterexamples -/

/-- Toy URL parser defined on the two fixture base URLs (a stand-in for
the external `url` crate when evaluating witnesses). -/
def urlFixture : String → Option UrlM := fun s =>
  if s = "http://h1:8080" then some ⟨"http", some "h1", some 8080, "/", none⟩
  else if s = "http://h2:9091" then some ⟨"http", some "h2", some 9091, "/", none⟩
  else none

/-- Fixture configuration document: one Kind-A and one Kind-B backend. -/
def cfgFixture : ConfigFile :=
  ⟨"a", [⟨"a", "", BackendType.qbit, "http://h1:8080", "u", "p"⟩,
         ⟨"b", "", BackendType.trans, "http://h2:9091", "", ""⟩]⟩

/-- Fixture catalog: the successful load of `cfgFixture`. -/
def catFixture : Catalog :=
  match Catalog.load urlFixture cfgFixture with
  | Except.ok c => c
  | Except.error _ => ⟨"", [], []⟩

/-- Fixture Kind-A entry of `catFixture`. -/
def entryFixture : ServerEntry :=
  (alookup "a" catFixture.servers).getD
    ⟨⟨"", "", BackendType.qbit, "", "", ""⟩, ⟨"", none, none, "", none⟩, ""⟩

/-- Fixture oracle: both logins succeed, both forwards return 403. -/
def orcRetryFixture : ProxyOracle :=
  ⟨Except.ok ⟨200, "Ok.", ["SID=abc; Path=/"]⟩,
   Except.ok ⟨200, "Ok.", ["SID=abc2; Path=/"]⟩,
   Except.ok ⟨403, []⟩,
   Except.ok ⟨403, [("set-cookie", "z"), ("content-type", "json")]⟩⟩

/-- The outcome of `handle_proxy` on the fixtures under `orcRetryFixture`. -/
def outRetryFixture : ProxyOut :=
  ⟨⟨403, [("content-type", "json")]⟩,
   [("a", some "SID=abc2")],
   ⟨[false, true], [(some "SID=abc", []), (some "SID=abc2", [])]⟩,
   entryFixture,
   ⟨"http", some "h1", some 8080, "/api/x", none⟩⟩

/-- Fixture oracle: the login is rejected by the backend; the upstream
forward itself succeeds with a 200. -/
def orcAuthFailFixture : ProxyOracle :=
  ⟨Except.ok ⟨403, "Fails.", []⟩, Except.error (),
   Except.ok ⟨200, []⟩, Except.error "unused"⟩

/-- The outcome of `handle_proxy` on the fixtures under
`orcAuthFailFixture`. -/
def outAuthFailFixture : ProxyOut :=
  ⟨⟨200, []⟩, [("a", none)], ⟨[false], [(none, [])]⟩, entryFixture,
   ⟨"http", some "h1", some 8080, "/api/x", none⟩⟩

/-! ## Helper lemmas -/

theorem alookup_mem {α : Type} {k : String} {l : List (String × α)} {v : α}
    (h : alookup k l = some v) : (k, v) ∈ l := by
  induction l with
  | nil => simp [alookup] at h
  | cons p rest ih =>
    obtain ⟨k', v'⟩ := p
    by_cases hk : k' = k
    · subst hk
      simp [alookup] at h
      simp [h]
    · simp [alookup, hk] at h
      exact List.mem_cons_of_mem _ (ih h)

theorem alookup_isSome_iff {α : Type} {k : String} {l : List (String × α)} :
    (alookup k l).isSome = true ↔ k ∈ l.map Prod.fst := by
  induction l with
  | nil => simp [alookup]
  | cons p rest ih =>
    obtain ⟨k', v'⟩ := p
    by_cases hk : k' = k
    · subst hk; simp [alookup]
    · simp [alookup, hk, ih, Ne.symm hk]

theorem alookup_eq_some_of_mem_nodup {α : Type} {k : String} {l : List (String × α)}
    {v : α} (hmem : (k, v) ∈ l) (hnd : (l.map Prod.fst).Nodup) :
    alookup k l = some v := by
  induction l with
  | nil => simp at hmem
  | cons p rest ih =>
    obtain ⟨k', v'⟩ := p
    simp only [List.map_cons, List.nodup_cons] at hnd
    rcases List.mem_cons.mp hmem with h | h
    · obtain ⟨hk, hv⟩ := Prod.mk.injEq k v k' v' ▸ h
      subst hk
      subst hv
      simp [alookup]
    · have hk : k' ≠ k := by
        intro hkk
        subst hkk
        exact hnd.1 (List.mem_map.mpr ⟨(k', v), h, rfl⟩)
      simp [alookup, hk]
      exact ih h hnd.2

theorem dropWhile_head_not (p : Char → Bool) (l : List Char) (x : Char)
    (h : (l.dropWhile p).head? = some x) : p x = false := by
  induction l with
  | nil => simp [List.dropWhile] at h
  | cons c cs ih =>
    by_cases hc : p c
    · simp [List.dropWhile, hc] at h
      exact ih h
    · simp [List.dropWhile, hc] at h
      subst h
      simpa using hc

theorem takeWhile_eq_replicate (c : Char) (l : List Char) :
    l.takeWhile (fun ch => ch = c) =
      List.replicate (l.takeWhile (fun ch => ch = c)).length c := by
  induction l with
  | nil => simp
  | cons x xs ih =>
    by_cases hx : x = c
    · subst hx
      rw [List.takeWhile_cons, if_pos (by simp), List.length_cons, List.replicate_succ]
      exact congrArg (List.cons x) ih
    · rw [List.takeWhile_cons, if_neg (by simpa using hx)]
      simp

theorem strStarts_slash {b : String} (h : strStarts b "/" = true) :
    ∃ t, b.data = '/' :: t := by
  have hdata : ("/" : String).data = ['/'] := rfl
  unfold strStarts at h
  rw [hdata] at h
  match hb : b.data with
  | [] => rw [hb] at h; simp [listStarts] at h
  | x :: xs =>
    rw [hb] at h
    simp [listStarts] at h
    exact ⟨xs, by rw [← h]⟩

theorem selected_id_some (cat : Catalog) (v : String) :
    cat.selected_id (some v) =
      if strTrim v ≠ "" ∧ (alookup (strTrim v) cat.servers).isSome = true
      then strTrim v else cat.default_id := rfl

theorem selected_id_none (cat : Catalog) :
    cat.selected_id none = cat.default_id := rfl

/-- The claim C6 states that when the base ends with a slash and the
request path starts with one, exactly one slash is dropped at the
boundary.  The code drops every leading slash of the request path:
`join_path "/x/" "//y"` yields `"/x/y"`, not `"/x//y"`. -/
theorem C6_counterexample :
    strEnds "/x/" "/" = true ∧ strStarts "//y" "/" = true ∧
    join_path "/x/" "//y" = "/x/y" ∧ join_path "/x/" "//y" ≠ "/x/" ++ "/y" := by
  decide

/-- Claim C6 (amended): the three quoted evaluations hold, and in general
when the base ends with `/` and the request path starts with `/` the code
drops all (one or more) leading slashes of the request path — exactly one
when the request path has a single leading slash; when neither side has a
boundary slash one slash is inserted (onto an empty base the result is
`/` + path); otherwise the two are concatenated as-is. -/
theorem C6_join_path (a b : String) :
    join_path "" "/api/v1" = "/api/v1" ∧
    join_path "/x/" "/y" = "/x/y" ∧
    join_path "/x" "y" = "/x/y" ∧
    (strEnds a "/" = true → strStarts b "/" = true →
      ∃ k rest, 1 ≤ k ∧ b.data = List.replicate k '/' ++ rest ∧
        rest.head? ≠ some '/' ∧ join_path a b = a ++ String.mk rest) ∧
    (strEnds a "/" = false → strStarts b "/" = false →
      join_path a b = if a = "" then "/" ++ b else a ++ "/" ++ b) ∧
    (strEnds a "/" ≠ strStarts b "/" → join_path a b = a ++ b) := by
  refine ⟨by decide, by decide, by decide, ?_, ?_, ?_⟩
  · intro ha hb
    refine ⟨(b.data.takeWhile (fun ch => ch = '/')).length,
      b.data.dropWhile (fun ch => ch = '/'), ?_, ?_, ?_, ?_⟩
    · obtain ⟨t, ht⟩ := strStarts_slash hb
      rw [ht]
      simp [List.takeWhile_cons]
    · conv_lhs => rw [← List.takeWhile_append_dropWhile (p := fun ch => decide (ch = '/')) (l := b.data)]
      rw [← takeWhile_eq_replicate]
    · intro hhead
      have := dropWhile_head_not (fun ch => decide (ch = '/')) b.data '/' hhead
      simp at this
    · unfold join_path
      rw [ha, hb]
      rfl
  · intro ha hb
    unfold join_path
    rw [ha, hb]
  · intro hne
    unfold join_path
    match hA : strEnds a "/", hB : strStarts b "/" with
    | true, true => rw [hA, hB] at hne; simp at hne
    | false, false => rw [hA, hB] at hne; simp at hne
    | true, false => rfl
    | false, true => rfl

/-- Witness for `C6_join_path` at `a = "/img/"`, `b = "/f.png"`. -/
theorem C6_join_path_witness :
    (join_path "" "/api/v1" = "/api/v1" ∧
    join_path "/x/" "/y" = "/x/y" ∧
    join_path "/x" "y" = "/x/y" ∧
    (strEnds "/img/" "/" = true → strStarts "/f.png" "/" = true →
      ∃ k rest, 1 ≤ k ∧ ("/f.png" : String).data = List.replicate k '/' ++ rest ∧
        rest.head? ≠ some '/' ∧ join_path "/img/" "/f.png" = "/img/" ++ String.mk rest) ∧
    (strEnds "/img/" "/" = false → strStarts "/f.png" "/" = false →
      join_path "/img/" "/f.png" = if "/img/" = "" then "/" ++ "/f.png" else "/img/" ++ "/" ++ "/f.png") ∧
    (strEnds "/img/" "/" ≠ strStarts "/f.png" "/" → join_path "/img/" "/f.png" = "/img/" ++ "/f.png")) :=
  C6_join_path "/img/" "/f.png"

/-- Claim C8: for a Catalog satisfying its invariants, `pick` never
misses: it returns an entry whose id is among the configured ids — the
trimmed signal id when that names a known entry, the default entry
otherwise. -/
theorem C8_pick_total (cat : Catalog) (jar : Option String) (h : cat.Valid) :
    ∃ e, cat.pick jar = some e ∧ e.cfg.id ∈ cat.servers.map Prod.fst ∧
      (∀ v, jar = some v → strTrim v ≠ "" →
        (alookup (strTrim v) cat.servers).isSome = true → e.cfg.id = strTrim v) ∧
      ((∀ v, jar = some v →
          strTrim v = "" ∨ (alookup (strTrim v) cat.servers).isSome = false) →
        e.cfg.id = cat.default_id) := by
  obtain ⟨hdef, _hord, _hnd, hids⟩ := h
  have hsel : (alookup (cat.selected_id jar) cat.servers).isSome = true := by
    match jar with
    | none => rw [selected_id_none]; exact hdef
    | some v =>
      rw [selected_id_some]
      by_cases hc : strTrim v ≠ "" ∧ (alookup (strTrim v) cat.servers).isSome = true
      · rw [if_pos hc]
        exact hc.2
      · rw [if_neg hc]
        exact hdef
  obtain ⟨e, he⟩ := Option.isSome_iff_exists.mp hsel
  have hid : e.cfg.id = cat.selected_id jar := hids _ (alookup_mem he)
  refine ⟨e, he, ?_, ?_, ?_⟩
  · rw [hid]
    exact alookup_isSome_iff.mp hsel
  · intro v hv hne hsome
    rw [hid, hv, selected_id_some, if_pos ⟨hne, hsome⟩]
  · intro hnone
    rw [hid]
    match hj : jar with
    | none => rw [selected_id_none]
    | some v =>
      rw [selected_id_some, if_neg]
      rcases hnone v rfl with hc | hc
      · intro hcc
        exact hcc.1 hc
      · intro hcc
        rw [hc] at hcc
        simp at hcc

/-- Witness for `C8_pick_total`: the fixture catalog with a signal that
names no configured backend resolves to the default entry. -/
theorem C8_pick_total_witness :
    catFixture.Valid ∧
    (∃ e, catFixture.pick (some "ghost") = some e ∧
      e.cfg.id ∈ catFixture.servers.map Prod.fst ∧
      (∀ v, some "ghost" = some v → strTrim v ≠ "" →
        (alookup (strTrim v) catFixture.servers).isSome = true → e.cfg.id = strTrim v) ∧
      ((∀ v, some "ghost" = some v →
          strTrim v = "" ∨ (alookup (strTrim v) catFixture.servers).isSome = false) →
        e.cfg.id = catFixture.default_id)) :=
  ⟨by unfold Catalog.Valid; decide,
   C8_pick_total catFixture (some "ghost") (by unfold Catalog.Valid; decide)⟩

/-! ## Lemmas on the proxy phases -/

theorem handle_proxy_some (validName : String → Bool) (st : GwState)
    (jar : Option String) (p : String) (q : Option String)
    (chunks : List (Except Unit (List Nat))) (orc : ProxyOracle)
    (entry : ServerEntry) (hpick : st.catalog.pick jar = some entry) :
    handle_proxy validName st jar p q chunks orc =
      some ⟨(proxyRespPhase validName entry st.sessions chunks orc).1,
        (proxyRespPhase validName entry st.sessions chunks orc).2.1,
        (proxyRespPhase validName entry st.sessions chunks orc).2.2,
        entry, build_target_url entry.base p q⟩ := by
  unfold handle_proxy
  rw [hpick]
  rfl

theorem proxyRespPhase_ok (validName : String → Bool) (entry : ServerEntry)
    (sessions : Sessions) (chunks : List (Except Unit (List Nat)))
    (orc : ProxyOracle) (body : List Nat)
    (hread : read_body_bytes chunks MAX_BODY_BYTES = Except.ok body) :
    proxyRespPhase validName entry sessions chunks orc =
      proxyForwardPhase validName entry sessions body orc := by
  unfold proxyRespPhase
  rw [hread]

theorem proxyAuthStep_trans (entry : ServerEntry) (sessions : Sessions)
    (login1 : Except Unit LoginResp) (h : entry.cfg.kind = BackendType.trans) :
    proxyAuthStep entry sessions login1 = (none, sessions, []) := by
  unfold proxyAuthStep
  rw [if_neg]
  rw [h]
  intro hq
  cases hq

theorem proxyAuthStep_ens (entry : ServerEntry) (sessions : Sessions)
    (login1 : Except Unit LoginResp) :
    (proxyAuthStep entry sessions login1).2.2 =
      if entry.cfg.kind = BackendType.qbit then [false] else [] := by
  unfold proxyAuthStep
  by_cases h : entry.cfg.kind = BackendType.qbit
  · rw [if_pos h, if_pos h]
  · rw [if_neg h, if_neg h]

theorem proxyForwardPhase_fwd1_err (validName : String → Bool)
    (entry : ServerEntry) (sessions : Sessions) (body : List Nat)
    (orc : ProxyOracle) (e : String) (h : orc.fwd1 = Except.error e) :
    proxyForwardPhase validName entry sessions body orc =
      (⟨502, []⟩, (proxyAuthStep entry sessions orc.login1).2.1,
        ⟨(proxyAuthStep entry sessions orc.login1).2.2,
         [((proxyAuthStep entry sessions orc.login1).1, body)]⟩) := by
  unfold proxyForwardPhase
  rw [h]

theorem proxyForwardPhase_noretry (validName : String → Bool)
    (entry : ServerEntry) (sessions : Sessions) (body : List Nat)
    (orc : ProxyOracle) (r1 : UpResp) (h : orc.fwd1 = Except.ok r1)
    (hnr : ¬(entry.cfg.kind = BackendType.qbit ∧ r1.status = 403)) :
    proxyForwardPhase validName entry sessions body orc =
      (⟨r1.status, sanitize_response_headers validName r1.headers⟩,
        (proxyAuthStep entry sessions orc.login1).2.1,
        ⟨(proxyAuthStep entry sessions orc.login1).2.2,
         [((proxyAuthStep entry sessions orc.login1).1, body)]⟩) := by
  unfold proxyForwardPhase
  rw [h]
  simp only [if_neg hnr]

theorem proxyForwardPhase_retry_ok (validName : String → Bool)
    (entry : ServerEntry) (sessions : Sessions) (body : List Nat)
    (orc : ProxyOracle) (r1 r2 : UpResp) (h : orc.fwd1 = Except.ok r1)
    (hq : entry.cfg.kind = BackendType.qbit) (h403 : r1.status = 403)
    (h2 : orc.fwd2 = Except.ok r2) :
    proxyForwardPhase validName entry sessions body orc =
      (⟨r2.status, sanitize_response_headers validName r2.headers⟩,
        (ensure_cookie (proxyAuthStep entry sessions orc.login1).2.1 entry true orc.login2).sessions,
        ⟨(proxyAuthStep entry sessions orc.login1).2.2 ++ [true],
         [((proxyAuthStep entry sessions orc.login1).1, body),
          (match (ensure_cookie (proxyAuthStep entry sessions orc.login1).2.1 entry true orc.login2).result with
           | Except.ok v => some v
           | Except.error _ => (proxyAuthStep entry sessions orc.login1).1, body)]⟩) := by
  unfold proxyForwardPhase
  rw [h]
  simp only [if_pos (And.intro hq h403), h2]

theorem proxyForwardPhase_retry_err (validName : String → Bool)
    (entry : ServerEntry) (sessions : Sessions) (body : List Nat)
    (orc : ProxyOracle) (r1 : UpResp) (e : String) (h : orc.fwd1 = Except.ok r1)
    (hq : entry.cfg.kind = BackendType.qbit) (h403 : r1.status = 403)
    (h2 : orc.fwd2 = Except.error e) :
    (proxyForwardPhase validName entry sessions body orc).1 = ⟨502, []⟩ ∧
    (proxyForwardPhase validName entry sessions body orc).2.2.ensures =
      (proxyAuthStep entry sessions orc.login1).2.2 ++ [true] ∧
    (proxyForwardPhase validName entry sessions body orc).2.2.forwards =
      [((proxyAuthStep entry sessions orc.login1).1, body),
       (match (ensure_cookie (proxyAuthStep entry sessions orc.login1).2.1 entry true orc.login2).result with
        | Except.ok v => some v
        | Except.error _ => (proxyAuthStep entry sessions orc.login1).1, body)] := by
  unfold proxyForwardPhase
  rw [h]
  simp only [if_pos (And.intro hq h403), h2]
  simp

/-- Claim C1: on a Kind-A backend, a 403 first response triggers exactly
one forced re-login and exactly one retried forward, whose response
(whatever its status, including a second 403) is returned with only the
standard response assembly applied; any other first status, or a Kind-B
backend, is returned without a retry and without a forced re-login. -/
theorem C1_retry_protocol (validName : String → Bool) (st : GwState)
    (jar : Option String) (p : String) (q : Option String)
    (chunks : List (Except Unit (List Nat))) (orc : ProxyOracle)
    (entry : ServerEntry) (body : List Nat) (r1 : UpResp) (out : ProxyOut)
    (hpick : st.catalog.pick jar = some entry)
    (hread : read_body_bytes chunks MAX_BODY_BYTES = Except.ok body)
    (hfwd1 : orc.fwd1 = Except.ok r1)
    (hout : handle_proxy validName st jar p q chunks orc = some out) :
    (entry.cfg.kind = BackendType.qbit ∧ r1.status = 403 →
      out.trace.ensures = [false, true] ∧
      out.trace.ensures.count true = 1 ∧
      out.trace.forwards.length = 2 ∧
      (∀ r2, orc.fwd2 = Except.ok r2 →
        out.resp = ⟨r2.status, sanitize_response_headers validName r2.headers⟩) ∧
      (∀ e, orc.fwd2 = Except.error e → out.resp.status = 502)) ∧
    (¬(entry.cfg.kind = BackendType.qbit ∧ r1.status = 403) →
      out.trace.forwards.length = 1 ∧
      out.trace.ensures.count true = 0 ∧
      out.resp = ⟨r1.status, sanitize_response_headers validName r1.headers⟩) ∧
    (entry.cfg.kind = BackendType.trans → out.trace.ensures = []) := by
  rw [handle_proxy_some validName st jar p q chunks orc entry hpick] at hout
  simp only [Option.some.injEq] at hout
  subst hout
  simp only [proxyRespPhase_ok validName entry st.sessions chunks orc body hread]
  have hens := proxyAuthStep_ens entry st.sessions orc.login1
  refine ⟨?_, ?_, ?_⟩
  · intro hcase
    rw [if_pos hcase.1] at hens
    cases horc2 : orc.fwd2 with
    | ok r2 =>
      rw [proxyForwardPhase_retry_ok validName entry st.sessions body orc r1 r2
        hfwd1 hcase.1 hcase.2 horc2]
      refine ⟨by simp [hens], by simp [hens], rfl, ?_, ?_⟩
      · intro r2' h2'
        injection h2' with hr
        subst hr
        rfl
      · intro e h2'
        exact Except.noConfusion h2'
    | error e =>
      obtain ⟨hr, he, hf⟩ := proxyForwardPhase_retry_err validName entry st.sessions
        body orc r1 e hfwd1 hcase.1 hcase.2 horc2
      refine ⟨?_, ?_, ?_, ?_, ?_⟩
      · show (proxyForwardPhase validName entry st.sessions body orc).2.2.ensures = _
        rw [he, hens]
        rfl
      · show ((proxyForwardPhase validName entry st.sessions body orc).2.2.ensures).count true = 1
        rw [he, hens]
        decide
      · show ((proxyForwardPhase validName entry st.sessions body orc).2.2.forwards).length = 2
        rw [hf]
        rfl
      · intro r2' h2'
        exact Except.noConfusion h2'
      · intro e' h2'
        show (proxyForwardPhase validName entry st.sessions body orc).1.status = 502
        rw [hr]
  · intro hcase
    rw [proxyForwardPhase_noretry validName entry st.sessions body orc r1 hfwd1 hcase]
    refine ⟨rfl, ?_, rfl⟩
    by_cases hq : entry.cfg.kind = BackendType.qbit
    · rw [if_pos hq] at hens
      simp [hens]
    · rw [if_neg hq] at hens
      simp [hens]
  · intro htr
    have hnr : ¬(entry.cfg.kind = BackendType.qbit ∧ r1.status = 403) := by
      intro hcc
      rw [htr] at hcc
      cases hcc.1
    rw [proxyForwardPhase_noretry validName entry st.sessions body orc r1 hfwd1 hnr]
    rw [if_neg (by rw [htr]; intro hqq; cases hqq)] at hens
    exact hens

/-- Witness for `C1_retry_protocol` on the fixture catalog: a 403 first
response with a successful forced re-login and a second 403, passed
through with `Set-Cookie` stripped. -/
theorem C1_retry_protocol_witness :
    catFixture.pick none = some entryFixture ∧
    outRetryFixture.trace.ensures = [false, true] ∧
    outRetryFixture.trace.ensures.count true = 1 ∧
    outRetryFixture.trace.forwards.length = 2 ∧
    outRetryFixture.resp =
      ⟨403, sanitize_response_headers (fun _ => true)
        [("set-cookie", "z"), ("content-type", "json")]⟩ :=
  have h := C1_retry_protocol (fun _ => true) ⟨catFixture, []⟩ none "/api/x" none []
    orcRetryFixture entryFixture [] ⟨403, []⟩ outRetryFixture
    (by decide) rfl rfl (by decide)
  ⟨by decide, (h.1 (by decide)).1, (h.1 (by decide)).2.1, (h.1 (by decide)).2.2.1,
   (h.1 (by decide)).2.2.2.1 ⟨403, [("set-cookie", "z"), ("content-type", "json")]⟩ rfl⟩

theorem proxyAuthStep_err (entry : ServerEntry) (sessions : Sessions)
    (login1 : Except Unit LoginResp) (msg : String)
    (hq : entry.cfg.kind = BackendType.qbit)
    (h : (ensure_cookie sessions entry false login1).result = Except.error msg) :
    (proxyAuthStep entry sessions login1).1 = none := by
  unfold proxyAuthStep
  rw [if_pos hq]
  simp only [h]

/-- Claim C3 asserts that a failed login from `ensureToken` surfaces as a
502-class upstream error.  The code ignores the failure (`if let Ok(v)`)
and forwards the request without a session token: here the backend
rejects the login (status 403 on the login endpoint) yet the caller
receives the upstream 200, not a 502, and the forward carries no cookie. -/
theorem C3_counterexample :
    (ensure_cookie [] entryFixture false (Except.ok ⟨403, "Fails.", []⟩)).result =
      Except.error "qB login failed: status" ∧
    (handle_proxy (fun _ => true) ⟨catFixture, []⟩ none "/api/x" none []
        ⟨Except.ok ⟨403, "Fails.", []⟩, Except.error (),
         Except.ok ⟨200, []⟩, Except.error "unused"⟩).map
      (fun o => (o.resp.status, o.trace.forwards.map Prod.fst)) = some (200, [none]) ∧
    (200 : Nat) ≠ 502 := by
  decide

/-- Claim C3 (amended): when `ensure_cookie` fails on a Kind-A entry the
gateway swallows the error and still performs the first forward, with no
session cookie attached; the response the caller sees is the upstream
response (status passed through when it is not retried), and a 502 arises
only when the forward itself fails. -/
theorem C3_auth_failure_swallowed (validName : String → Bool) (st : GwState)
    (jar : Option String) (p : String) (q : Option String)
    (chunks : List (Except Unit (List Nat))) (orc : ProxyOracle)
    (entry : ServerEntry) (body : List Nat) (msg : String) (out : ProxyOut)
    (hpick : st.catalog.pick jar = some entry)
    (hq : entry.cfg.kind = BackendType.qbit)
    (hread : read_body_bytes chunks MAX_BODY_BYTES = Except.ok body)
    (hens : (ensure_cookie st.sessions entry false orc.login1).result = Except.error msg)
    (hout : handle_proxy validName st jar p q chunks orc = some out) :
    (∃ rest, out.trace.forwards = (none, body) :: rest) ∧
    (∀ r1, orc.fwd1 = Except.ok r1 → r1.status ≠ 403 →
      out.resp = ⟨r1.status, sanitize_response_headers validName r1.headers⟩) ∧
    (∀ e, orc.fwd1 = Except.error e → out.resp.status = 502) := by
  rw [handle_proxy_some validName st jar p q chunks orc entry hpick] at hout
  simp only [Option.some.injEq] at hout
  subst hout
  simp only [proxyRespPhase_ok validName entry st.sessions chunks orc body hread]
  have hc0 := proxyAuthStep_err entry st.sessions orc.login1 msg hq hens
  cases horc1 : orc.fwd1 with
  | error e =>
    rw [proxyForwardPhase_fwd1_err validName entry st.sessions body orc e horc1]
    refine ⟨⟨[], by rw [hc0]⟩, ?_, ?_⟩
    · intro r1 h1
      exact Except.noConfusion h1
    · intro e' h1
      rfl
  | ok r1 =>
    by_cases h403 : r1.status = 403
    · cases horc2 : orc.fwd2 with
      | ok r2 =>
        rw [proxyForwardPhase_retry_ok validName entry st.sessions body orc r1 r2
          horc1 hq h403 horc2]
        refine ⟨⟨_, by rw [hc0]⟩, ?_, ?_⟩
        · intro r1' h1 hne
          injection h1 with hr
          subst hr
          exact absurd h403 hne
        · intro e' h1
          exact Except.noConfusion h1
      | error e =>
        obtain ⟨hr, he, hf⟩ := proxyForwardPhase_retry_err validName entry st.sessions
          body orc r1 e horc1 hq h403 horc2
        refine ⟨?_, ?_, ?_⟩
        · show ∃ rest, (proxyForwardPhase validName entry st.sessions body orc).2.2.forwards = _ :: rest
          exact ⟨_, by rw [hf, hc0]⟩
        · intro r1' h1 hne
          injection h1 with hr'
          subst hr'
          exact absurd h403 hne
        · intro e' h1
          exact Except.noConfusion h1
    · rw [proxyForwardPhase_noretry validName entry st.sessions body orc r1 horc1
        (fun hc => h403 hc.2)]
      refine ⟨⟨[], by rw [hc0]⟩, ?_, ?_⟩
      · intro r1' h1 hne
        injection h1 with hr
        subst hr
        rfl
      · intro e' h1
        exact Except.noConfusion h1

/-- Witness for `C3_auth_failure_swallowed` on the fixtures: the rejected
login is swallowed, the forward is sent without a cookie, and the
upstream 200 is relayed. -/
theorem C3_auth_failure_swallowed_witness :
    (ensure_cookie [] entryFixture false orcAuthFailFixture.login1).result =
      Except.error "qB login failed: status" ∧
    (∃ rest, outAuthFailFixture.trace.forwards = (none, ([] : List Nat)) :: rest) ∧
    outAuthFailFixture.resp = ⟨200, sanitize_response_headers (fun _ => true) []⟩ :=
  have h := C3_auth_failure_swallowed (fun _ => true) ⟨catFixture, []⟩ none "/api/x" none
    [] orcAuthFailFixture entryFixture [] "qB login failed: status" outAuthFailFixture
    (by decide) (by decide) rfl (by decide) (by decide)
  ⟨by decide, h.1, h.2.1 ⟨200, []⟩ rfl (by decide)⟩

/-- Claim C9: response headers relayed by the proxy never contain
`Set-Cookie`, a fixed hop-by-hop header, or a header named in the
upstream `Connection` value, and the relayed status code equals the
upstream status unchanged (for the response that is actually relayed,
first or retried). -/
theorem C9_response_assembly (validName : String → Bool) :
    (∀ hs, (∀ pr ∈ hs, validName pr.1 = true) →
      ∀ pr ∈ sanitize_response_headers validName hs,
        pr.1 ≠ "set-cookie" ∧ pr.1 ∉ hopHeaders ∧ pr.1 ∉ connTokens hs) ∧
    (∀ st jar p q chunks orc entry body out,
      st.catalog.pick jar = some entry →
      read_body_bytes chunks MAX_BODY_BYTES = Except.ok body →
      handle_proxy validName st jar p q chunks orc = some out →
      (∀ r1, orc.fwd1 = Except.ok r1 →
        ¬(entry.cfg.kind = BackendType.qbit ∧ r1.status = 403) →
        out.resp.status = r1.status ∧
        out.resp.headers = sanitize_response_headers validName r1.headers) ∧
      (∀ r1 r2, orc.fwd1 = Except.ok r1 → entry.cfg.kind = BackendType.qbit →
        r1.status = 403 → orc.fwd2 = Except.ok r2 →
        out.resp.status = r2.status ∧
        out.resp.headers = sanitize_response_headers validName r2.headers)) := by
  constructor
  · intro hs hvalid pr hmem
    unfold sanitize_response_headers at hmem
    obtain ⟨hmem1, hsc⟩ := List.mem_filter.mp hmem
    unfold remove_hop_headers at hmem1
    obtain ⟨hmem2, hhop⟩ := List.mem_filter.mp hmem1
    obtain ⟨hmem3, htok⟩ := List.mem_filter.mp hmem2
    refine ⟨by simpa using hsc, ?_, ?_⟩
    · intro hin
      simp at hhop
      exact hhop hin
    · intro hin
      have hv := hvalid pr hmem3
      simp at htok
      rcases htok with h | h
      · exact h hin
      · rw [h] at hv
        exact Bool.noConfusion hv
  · intro st jar p q chunks orc entry body out hpick hread hout
    rw [handle_proxy_some validName st jar p q chunks orc entry hpick] at hout
    simp only [Option.some.injEq] at hout
    subst hout
    simp only [proxyRespPhase_ok validName entry st.sessions chunks orc body hread]
    constructor
    · intro r1 h1 hnr
      rw [proxyForwardPhase_noretry validName entry st.sessions body orc r1 h1 hnr]
      exact ⟨rfl, rfl⟩
    · intro r1 r2 h1 hq h403 h2
      rw [proxyForwardPhase_retry_ok validName entry st.sessions body orc r1 r2 h1 hq h403 h2]
      exact ⟨rfl, rfl⟩

/-- Witness for `C9_response_assembly`: a concrete header list with a
`Connection`-named token, a hop-by-hop header and a `Set-Cookie` is
sanitized down to its ordinary headers. -/
theorem C9_response_assembly_witness :
    sanitize_response_headers (fun _ => true)
      [("content-type", "json"), ("set-cookie", "SID=z"),
       ("connection", "x-foo, upgrade"), ("x-foo", "1"), ("upgrade", "h2c")] =
      [("content-type", "json")] ∧
    (∀ pr ∈ sanitize_response_headers (fun _ => true)
      [("content-type", "json"), ("set-cookie", "SID=z"),
       ("connection", "x-foo, upgrade"), ("x-foo", "1"), ("upgrade", "h2c")],
        pr.1 ≠ "set-cookie" ∧ pr.1 ∉ hopHeaders ∧
        pr.1 ∉ connTokens [("content-type", "json"), ("set-cookie", "SID=z"),
          ("connection", "x-foo, upgrade"), ("x-foo", "1"), ("upgrade", "h2c")]) :=
  ⟨by decide,
   (C9_response_assembly (fun _ => true)).1
     [("content-type", "json"), ("set-cookie", "SID=z"),
      ("connection", "x-foo, upgrade"), ("x-foo", "1"), ("upgrade", "h2c")]
     (by decide)⟩

theorem listStarts_append (l m : List Char) : listStarts l (l ++ m) = true := by
  induction l with
  | nil => rfl
  | cons a as ih => simp [listStarts, ih]

theorem strStarts_append (pre rest : String) : strStarts (pre ++ rest) pre = true := by
  unfold strStarts
  rw [String.data_append]
  exact listStarts_append pre.data rest.data

theorem append_ne_of_get (pre rest lit : String) (n : Nat)
    (hn : n < pre.data.length) (hne : pre.data[n]? ≠ lit.data[n]?) :
    pre ++ rest ≠ lit := by
  intro h
  apply hne
  have hd := congrArg String.data h
  rw [String.data_append] at hd
  rw [← hd, List.getElem?_append_left hn]

theorem append_eq_self (pre rest : String) (h : pre ++ rest = pre) : rest = "" := by
  have hd := congrArg String.data h
  rw [String.data_append] at hd
  have h2 : pre.data ++ rest.data = pre.data ++ [] := by
    rw [List.append_nil]
    exact hd
  have h3 := List.append_cancel_left h2
  cases rest
  simp at h3
  subst h3
  rfl

theorem trans_not_api (rest : String) :
    strStarts ("/transmission/" ++ rest) "/api/" = false := by
  have h1 : ("/api/" : String).data = ['/', 'a', 'p', 'i', '/'] := rfl
  have h2 : ("/transmission/" : String).data =
    ['/', 't', 'r', 'a', 'n', 's', 'm', 'i', 's', 's', 'i', 'o', 'n', '/'] := rfl
  unfold strStarts
  rw [String.data_append, h1, h2]
  simp [listStarts]

theorem route_api (m : HttpMethod) (rest : String) (h : rest ≠ "") :
    route m ("/api/" ++ rest) = RouteTarget.proxied := by
  unfold route
  rw [if_neg (append_ne_of_get "/api/" rest "/__standalone__/status" 1 (by decide) (by decide))]
  rw [if_neg (append_ne_of_get "/api/" rest "/__standalone__/select" 1 (by decide) (by decide))]
  rw [if_neg (append_ne_of_get "/api/" rest "/__standalone__/config" 1 (by decide) (by decide))]
  rw [if_pos ⟨strStarts_append "/api/" rest, fun hc => h (append_eq_self "/api/" rest hc)⟩]

theorem route_transmission (m : HttpMethod) (rest : String) (h : rest ≠ "") :
    route m ("/transmission/" ++ rest) = RouteTarget.proxied := by
  unfold route
  rw [if_neg (append_ne_of_get "/transmission/" rest "/__standalone__/status" 1 (by decide) (by decide))]
  rw [if_neg (append_ne_of_get "/transmission/" rest "/__standalone__/select" 1 (by decide) (by decide))]
  rw [if_neg (append_ne_of_get "/transmission/" rest "/__standalone__/config" 1 (by decide) (by decide))]
  rw [if_neg (fun hc => by rw [trans_not_api rest] at hc; exact Bool.noConfusion hc.1)]
  rw [if_pos ⟨strStarts_append "/transmission/" rest,
    fun hc => h (append_eq_self "/transmission/" rest hc)⟩]

/-- Claim C10: both `/api/*` and `/transmission/*` dispatch to the same
proxy handler, and the handler's choice of backend — and everything that
depends on it: response, sessions, auth/forward trace — is determined by
the selection signal and catalog alone; the request path only shapes the
target URL on the entry that was picked. -/
theorem C10_path_independence :
    (∀ m rest, rest ≠ "" → route m ("/api/" ++ rest) = RouteTarget.proxied) ∧
    (∀ m rest, rest ≠ "" → route m ("/transmission/" ++ rest) = RouteTarget.proxied) ∧
    (∀ validName st jar chunks orc p q entry,
      (st : GwState).catalog.pick jar = some entry →
      ∃ out, handle_proxy validName st jar p q chunks orc = some out ∧
        out.entry = entry ∧ out.target = build_target_url entry.base p q) ∧
    (∀ validName st jar chunks orc p p' q q' out out',
      handle_proxy validName st jar p q chunks orc = some out →
      handle_proxy validName (st : GwState) jar p' q' chunks orc = some out' →
      out.entry = out'.entry ∧ out.resp = out'.resp ∧
      out.sessions = out'.sessions ∧ out.trace = out'.trace) := by
  refine ⟨route_api, route_transmission, ?_, ?_⟩
  · intro validName st jar chunks orc p q entry hpick
    exact ⟨_, handle_proxy_some validName st jar p q chunks orc entry hpick, rfl, rfl⟩
  · intro validName st jar chunks orc p p' q q' out out' hout hout'
    unfold handle_proxy at hout hout'
    cases hpick : st.catalog.pick jar with
    | none =>
      rw [hpick] at hout
      exact Option.noConfusion hout
    | some entry =>
      rw [hpick] at hout hout'
      simp only [Option.map_some', Option.some.injEq] at hout hout'
      subst hout
      subst hout'
      exact ⟨rfl, rfl, rfl, rfl⟩

/-- Witness for `C10_path_independence`: the two wildcard routes on a
concrete path, and the fixture run picking the default Kind-A entry. -/
theorem C10_path_independence_witness :
    route HttpMethod.get ("/api/" ++ "v2/torrents/info") = RouteTarget.proxied ∧
    route HttpMethod.post ("/transmission/" ++ "rpc") = RouteTarget.proxied ∧
    (∃ out, handle_proxy (fun _ => true) ⟨catFixture, []⟩ none "/transmission/rpc" none []
        orcRetryFixture = some out ∧
      out.entry = entryFixture ∧
      out.target = build_target_url entryFixture.base "/transmission/rpc" none) :=
  ⟨C10_path_independence.1 HttpMethod.get "v2/torrents/info" (by decide),
   C10_path_independence.2.1 HttpMethod.post "rpc" (by decide),
   C10_path_independence.2.2.1 (fun _ => true) ⟨catFixture, []⟩ none [] orcRetryFixture
     "/transmission/rpc" none entryFixture (by decide)⟩

theorem read_body_loop_le (limit : Nat) :
    ∀ (chunks : List (Except Unit (List Nat))) (out : List Nat),
    (∀ c ∈ chunks, c.isOk = true) →
    out.length + chunksTotal chunks ≤ limit →
    read_body_loop limit chunks out = Except.ok (out ++ chunksData chunks) := by
  intro chunks
  induction chunks with
  | nil =>
    intro out _ _
    simp [read_body_loop, chunksData]
  | cons c rest ih =>
    intro out hpure hle
    cases c with
    | error e =>
      have := hpure (Except.error e) (List.mem_cons_self _ _)
      simp [Except.isOk, Except.toBool] at this
    | ok chunk =>
      have htot : chunksTotal (Except.ok chunk :: rest) =
          chunk.length + chunksTotal rest := by
        simp [chunksTotal, Except.toOption]
      have hdata : chunksData (Except.ok chunk :: rest) =
          chunk ++ chunksData rest := by
        simp [chunksData, Except.toOption]
      rw [htot] at hle
      rw [hdata]
      simp only [read_body_loop]
      rw [if_neg (by omega)]
      rw [ih (out ++ chunk) (fun c hc => hpure c (List.mem_cons_of_mem _ hc))
        (by rw [List.length_append]; omega)]
      rw [List.append_assoc]

theorem read_body_loop_gt (limit : Nat) :
    ∀ (chunks : List (Except Unit (List Nat))) (out : List Nat),
    (∀ c ∈ chunks, c.isOk = true) →
    out.length ≤ limit →
    limit < out.length + chunksTotal chunks →
    read_body_loop limit chunks out = Except.error ReadBodyError.tooLarge := by
  intro chunks
  induction chunks with
  | nil =>
    intro out _ hout hgt
    simp [chunksTotal] at hgt
    omega
  | cons c rest ih =>
    intro out hpure hout hgt
    cases c with
    | error e =>
      have := hpure (Except.error e) (List.mem_cons_self _ _)
      simp [Except.isOk, Except.toBool] at this
    | ok chunk =>
      have htot : chunksTotal (Except.ok chunk :: rest) =
          chunk.length + chunksTotal rest := by
        simp [chunksTotal, Except.toOption]
      rw [htot] at hgt
      simp only [read_body_loop]
      by_cases hc : out.length + chunk.length > limit
      · rw [if_pos hc]
      · rw [if_neg hc]
        exact ih (out ++ chunk) (fun c hc' => hpure c (List.mem_cons_of_mem _ hc'))
          (by rw [List.length_append]; omega)
          (by rw [List.length_append]; omega)

theorem read_body_bytes_ok (limit : Nat) (chunks : List (Except Unit (List Nat)))
    (hpure : ∀ c ∈ chunks, c.isOk = true) (hle : chunksTotal chunks ≤ limit) :
    read_body_bytes chunks limit = Except.ok (chunksData chunks) := by
  unfold read_body_bytes
  have := read_body_loop_le limit chunks [] hpure (by simpa using hle)
  simpa using this

theorem read_body_bytes_tooLarge (limit : Nat) (chunks : List (Except Unit (List Nat)))
    (hpure : ∀ c ∈ chunks, c.isOk = true) (hgt : limit < chunksTotal chunks) :
    read_body_bytes chunks limit = Except.error ReadBodyError.tooLarge := by
  unfold read_body_bytes
  exact read_body_loop_gt limit chunks [] hpure (by simp) (by simpa using hgt)

theorem proxyRespPhase_tooLarge (validName : String → Bool) (entry : ServerEntry)
    (sessions : Sessions) (chunks : List (Except Unit (List Nat))) (orc : ProxyOracle)
    (h : read_body_bytes chunks MAX_BODY_BYTES = Except.error ReadBodyError.tooLarge) :
    proxyRespPhase validName entry sessions chunks orc = (⟨413, []⟩, sessions, ⟨[], []⟩) := by
  unfold proxyRespPhase
  rw [h]

theorem proxyForwardPhase_forwards_head (validName : String → Bool)
    (entry : ServerEntry) (sessions : Sessions) (body : List Nat) (orc : ProxyOracle) :
    ∃ c rest, (proxyForwardPhase validName entry sessions body orc).2.2.forwards =
      (c, body) :: rest := by
  cases h1 : orc.fwd1 with
  | error e =>
    exact ⟨_, _, by rw [proxyForwardPhase_fwd1_err validName entry sessions body orc e h1]⟩
  | ok r1 =>
    by_cases hr : entry.cfg.kind = BackendType.qbit ∧ r1.status = 403
    · cases h2 : orc.fwd2 with
      | ok r2 =>
        exact ⟨_, _, by rw [proxyForwardPhase_retry_ok validName entry sessions body orc
          r1 r2 h1 hr.1 hr.2 h2]⟩
      | error e =>
        obtain ⟨_, _, hf⟩ := proxyForwardPhase_retry_err validName entry sessions body orc
          r1 e h1 hr.1 hr.2 h2
        exact ⟨_, _, hf⟩
    · exact ⟨_, _, by rw [proxyForwardPhase_noretry validName entry sessions body orc r1 h1 hr]⟩

/-- Claim C7: reading a body succeeds exactly when its total length is at
most the ceiling; the proxy ceiling is 64 MiB, a conforming body is
forwarded (every forward carries the full body), an oversized body yields
413 with no forward; the selection endpoint reads under a 1 KiB ceiling
and the config endpoint under a 64 KiB ceiling in the same way (the
selection handler reports its read failure as a 400, the config handler
as a 413, both without processing the request). -/
theorem C7_body_ceilings (chunks : List (Except Unit (List Nat)))
    (hpure : ∀ c ∈ chunks, c.isOk = true) :
    MAX_BODY_BYTES = 64 * 1024 * 1024 ∧
    ((read_body_bytes chunks MAX_BODY_BYTES).isOk = true ↔
      chunksTotal chunks ≤ MAX_BODY_BYTES) ∧
    (∀ validName st jar p q orc out,
      handle_proxy validName st jar p q chunks orc = some out →
      (chunksTotal chunks ≤ MAX_BODY_BYTES →
        ∃ c rest, out.trace.forwards = (c, chunksData chunks) :: rest) ∧
      (MAX_BODY_BYTES < chunksTotal chunks →
        out.resp.status = 413 ∧ out.trace.forwards = [])) ∧
    ((read_body_bytes chunks 1024).isOk = true ↔ chunksTotal chunks ≤ 1024) ∧
    (∀ cat parsedId, 1024 < chunksTotal chunks →
      handle_select cat HttpMethod.post chunks parsedId = ⟨400, none⟩) ∧
    ((read_body_bytes chunks (64 * 1024)).isOk = true ↔
      chunksTotal chunks ≤ 64 * 1024) ∧
    (∀ parseUrl st parsed fs, 64 * 1024 < chunksTotal chunks →
      handle_config_update parseUrl st chunks parsed fs = (413, st)) := by
  have hiff : ∀ limit : Nat, (read_body_bytes chunks limit).isOk = true ↔
      chunksTotal chunks ≤ limit := by
    intro limit
    constructor
    · intro h
      by_contra hgt
      rw [read_body_bytes_tooLarge limit chunks hpure (by omega)] at h
      simp [Except.isOk, Except.toBool] at h
    · intro hle
      rw [read_body_bytes_ok limit chunks hpure hle]
      rfl
  refine ⟨rfl, hiff MAX_BODY_BYTES, ?_, hiff 1024, ?_, hiff (64 * 1024), ?_⟩
  · intro validName st jar p q orc out hout
    cases hpick : st.catalog.pick jar with
    | none =>
      unfold handle_proxy at hout
      rw [hpick] at hout
      exact Option.noConfusion hout
    | some entry =>
      rw [handle_proxy_some validName st jar p q chunks orc entry hpick] at hout
      simp only [Option.some.injEq] at hout
      subst hout
      constructor
      · intro hle
        simp only [proxyRespPhase_ok validName entry st.sessions chunks orc
          (chunksData chunks) (read_body_bytes_ok MAX_BODY_BYTES chunks hpure hle)]
        exact proxyForwardPhase_forwards_head validName entry st.sessions
          (chunksData chunks) orc
      · intro hgt
        simp only [proxyRespPhase_tooLarge validName entry st.sessions chunks orc
          (read_body_bytes_tooLarge MAX_BODY_BYTES chunks hpure hgt)]
        exact ⟨trivial, trivial⟩
  · intro cat parsedId hgt
    unfold handle_select
    rw [if_neg (by intro hc; exact hc rfl)]
    rw [read_body_bytes_tooLarge 1024 chunks hpure hgt]
  · intro parseUrl st parsed fs hgt
    unfold handle_config_update
    rw [read_body_bytes_tooLarge (64 * 1024) chunks hpure hgt]

/-- Witness for `C7_body_ceilings`: a one-byte-over-the-ceiling body is
rejected by the 64 MiB read, while a one-byte body passes. -/
theorem C7_body_ceilings_witness :
    chunksTotal [Except.ok (List.replicate (MAX_BODY_BYTES + 1) 0)] = MAX_BODY_BYTES + 1 ∧
    ((read_body_bytes [Except.ok (List.replicate (MAX_BODY_BYTES + 1) 0)]
        MAX_BODY_BYTES).isOk = true ↔
      chunksTotal [Except.ok (List.replicate (MAX_BODY_BYTES + 1) 0)] ≤ MAX_BODY_BYTES) ∧
    (read_body_bytes [Except.ok [7]] MAX_BODY_BYTES).isOk = true :=
  have h1 := C7_body_ceilings [Except.ok (List.replicate (MAX_BODY_BYTES + 1) 0)]
    (by simp [Except.isOk, Except.toBool])
  have h2 := C7_body_ceilings [Except.ok [7]] (by simp [Except.isOk, Except.toBool])
  ⟨by simp [chunksTotal, Except.toOption], h1.2.1,
   h2.2.1.mpr (by simp [chunksTotal, Except.toOption, MAX_BODY_BYTES])⟩

theorem ensureLogin_didLogin (sessions : Sessions) (id : String)
    (login : Except Unit LoginResp) :
    (ensureLogin sessions id login).didLogin = true := by
  unfold ensureLogin
  cases login with
  | error e => rfl
  | ok resp =>
    dsimp only
    by_cases h1 : resp.status ≠ 200
    · rw [if_pos h1]
    · rw [if_neg h1]
      by_cases h2 : (!strContains resp.body "Ok") = true
      · rw [if_pos h2]
      · rw [if_neg h2]
        by_cases h3 : extract_set_cookie_pairs resp.setCookies = []
        · simp only [if_pos h3]
        · simp only [if_neg h3]

theorem ensure_cookie_empty_didLogin (entry : ServerEntry)
    (login : Except Unit LoginResp)
    (hcred : ¬(entry.cfg.username = "" ∧ entry.cfg.password = "")) :
    (ensure_cookie [] entry false login).didLogin = true := by
  unfold ensure_cookie
  rw [if_neg hcred]
  simp only [alookup, Option.isSome_none, Bool.false_eq_true, if_false, List.nil_append,
    if_pos rfl, Option.getD_some]
  exact ensureLogin_didLogin _ _ _

theorem configFsPhase_err_code (fs : FsOracle) (c : Nat)
    (h : configFsPhase fs = Except.error c) : c = 500 ∨ c = 400 := by
  unfold configFsPhase at h
  split at h
  · exact Or.inl (by injection h with h'; exact h'.symm)
  · split at h
    · exact Or.inl (by injection h with h'; exact h'.symm)
    · split at h
      · exact Or.inl (by injection h with h'; exact h'.symm)
      · split at h
        · exact Or.inr (by injection h with h'; exact h'.symm)
        · exact Except.noConfusion h

theorem handle_config_update_cases (parseUrl : String → Option UrlM) (st : GwState)
    (chunks : List (Except Unit (List Nat))) (parsed : Except Unit ConfigUpdateRequest)
    (fs : FsOracle) :
    ((handle_config_update parseUrl st chunks parsed fs).2 = st ∧
     (handle_config_update parseUrl st chunks parsed fs).1 ≠ 200) ∨
    ((handle_config_update parseUrl st chunks parsed fs).1 = 200 ∧
     ∃ cat, fs.reload = Except.ok cat ∧
       (handle_config_update parseUrl st chunks parsed fs).2 = ⟨cat, []⟩) := by
  unfold handle_config_update
  split
  · exact Or.inl ⟨rfl, by intro h; simp at h⟩
  · exact Or.inl ⟨rfl, by intro h; simp at h⟩
  · split
    · exact Or.inl ⟨rfl, by intro h; simp at h⟩
    · split
      · exact Or.inl ⟨rfl, by intro h; simp at h⟩
      · split
        · rename_i c heq
          refine Or.inl ⟨rfl, ?_⟩
          intro h
          simp at h
          rcases configFsPhase_err_code fs c heq with h5 | h4
          · rw [h5] at h
            exact absurd h (by decide)
          · rw [h4] at h
            exact absurd h (by decide)
        · rename_i cat heq
          refine Or.inr ⟨rfl, cat, ?_, rfl⟩
          unfold configFsPhase at heq
          split at heq
          · exact Except.noConfusion heq
          · split at heq
            · exact Except.noConfusion heq
            · split at heq
              · exact Except.noConfusion heq
              · split at heq
                · exact Except.noConfusion heq
                · rename_i cat' heq'
                  rw [heq']
                  injection heq with h'
                  rw [h']

/-- Claim C2: a configuration update is all-or-nothing.  Every failing
path (413/400/500) returns the state unchanged — catalog and session
cells untouched; the success path installs exactly the catalog reloaded
from the just-written file and unconditionally discards every session
cell, so a subsequent Kind-A request with configured credentials performs
a fresh login. -/
theorem C2_config_update_atomic (parseUrl : String → Option UrlM) (st : GwState)
    (chunks : List (Except Unit (List Nat))) (parsed : Except Unit ConfigUpdateRequest)
    (fs : FsOracle) (code : Nat) (st' : GwState)
    (hrun : handle_config_update parseUrl st chunks parsed fs = (code, st')) :
    (code ≠ 200 → st' = st) ∧
    (code = 200 → ∃ cat, fs.reload = Except.ok cat ∧ st' = ⟨cat, []⟩) ∧
    (code = 200 → ∀ entry login,
      ¬(entry.cfg.username = "" ∧ entry.cfg.password = "") →
      (ensure_cookie st'.sessions entry false login).didLogin = true) := by
  have hc1 : (handle_config_update parseUrl st chunks parsed fs).1 = code := by
    rw [hrun]
  have hc2 : (handle_config_update parseUrl st chunks parsed fs).2 = st' := by
    rw [hrun]
  have hsucc : code = 200 → ∃ cat, fs.reload = Except.ok cat ∧ st' = ⟨cat, []⟩ := by
    intro h200
    rcases handle_config_update_cases parseUrl st chunks parsed fs with ⟨_, hne⟩ | ⟨_, cat, heq, hst⟩
    · rw [hc1, h200] at hne
      exact absurd rfl hne
    · exact ⟨cat, heq, by rw [← hc2, hst]⟩
  refine ⟨?_, hsucc, ?_⟩
  · intro hne
    rcases handle_config_update_cases parseUrl st chunks parsed fs with ⟨hst, _⟩ | ⟨h200, _⟩
    · rw [← hc2, hst]
    · rw [hc1] at h200
      exact absurd h200 hne
  · intro h200 entry login hcred
    obtain ⟨cat, _, hst⟩ := hsucc h200
    rw [hst]
    exact ensure_cookie_empty_didLogin entry login hcred

/-- Witness for `C2_config_update_atomic`: a successful update on the
fixture state discards the cached session cell, and the next
`ensure_cookie` performs a login round-trip. -/
theorem C2_config_update_atomic_witness :
    handle_config_update urlFixture ⟨catFixture, [("a", some "SID=x")]⟩ []
      (Except.ok ⟨"", [⟨"a", "", BackendType.qbit, "http://h1:8080", "u", none⟩]⟩)
      ⟨true, true, true, true, Except.ok catFixture⟩ = (200, ⟨catFixture, []⟩) ∧
    (∃ cat, (⟨true, true, true, true, Except.ok catFixture⟩ : FsOracle).reload =
        Except.ok cat ∧ (⟨catFixture, []⟩ : GwState) = ⟨cat, []⟩) ∧
    (ensure_cookie (⟨catFixture, []⟩ : GwState).sessions entryFixture false
      orcRetryFixture.login1).didLogin = true :=
  have h := C2_config_update_atomic urlFixture ⟨catFixture, [("a", some "SID=x")]⟩ []
    (Except.ok ⟨"", [⟨"a", "", BackendType.qbit, "http://h1:8080", "u", none⟩]⟩)
    ⟨true, true, true, true, Except.ok catFixture⟩ 200 ⟨catFixture, []⟩ (by decide)
  ⟨by decide, h.2.1 rfl,
   h.2.2 rfl entryFixture orcRetryFixture.login1 (by decide)⟩

theorem mergeLoop_mem (parseUrl : String → Option UrlM)
    (existing : List (String × String)) :
    ∀ (ss : List ConfigUpdateServer) (seen : List String)
      (out res : List ServerConfig),
    mergeLoop parseUrl existing ss seen out = Except.ok res →
    (∀ sc ∈ out, sc ∈ res) ∧
    (∀ s ∈ ss, ∃ sc ∈ res, sc.id = strTrim s.id ∧
      sc.password = mergedPassword existing s ∧
      sc.kind = s.kind ∧ sc.username = strTrim s.username) := by
  intro ss
  induction ss with
  | nil =>
    intro seen out res h
    unfold mergeLoop at h
    injection h with h'
    subst h'
    exact ⟨fun sc hsc => hsc, fun s hs => absurd hs (List.not_mem_nil s)⟩
  | cons s rest ih =>
    intro seen out res h
    unfold mergeLoop at h
    dsimp only at h
    split at h
    · exact Except.noConfusion h
    · split at h
      · exact Except.noConfusion h
      · split at h
        · exact Except.noConfusion h
        · split at h
          · exact Except.noConfusion h
          · split at h
            · exact Except.noConfusion h
            · split at h
              · exact Except.noConfusion h
              · obtain ⟨hsub, hall⟩ := ih _ _ _ h
                constructor
                · intro sc hsc
                  exact hsub sc (List.mem_append_left _ hsc)
                · intro s' hs'
                  rcases List.mem_cons.mp hs' with hh | hh
                  · subst hh
                    refine ⟨⟨strTrim s'.id,
                      (if strTrim s'.name = "" then strTrim s'.id else strTrim s'.name),
                      s'.kind, strTrim s'.base_url, strTrim s'.username,
                      mergedPassword existing s'⟩, ?_, rfl, rfl, rfl, rfl⟩
                    exact hsub _ (List.mem_append_right _ (List.mem_singleton.mpr rfl))
                  · exact hall s' hh

theorem mergeLoop_nodup (parseUrl : String → Option UrlM)
    (existing : List (String × String)) :
    ∀ (ss : List ConfigUpdateServer) (seen : List String)
      (out res : List ServerConfig),
    mergeLoop parseUrl existing ss seen out = Except.ok res →
    seen = out.map (fun sc => sc.id) → seen.Nodup →
    (res.map (fun sc => sc.id)).Nodup := by
  intro ss
  induction ss with
  | nil =>
    intro seen out res h hseen hnd
    unfold mergeLoop at h
    injection h with h'
    subst h'
    rw [← hseen]
    exact hnd
  | cons s rest ih =>
    intro seen out res h hseen hnd
    unfold mergeLoop at h
    dsimp only at h
    split at h
    · exact Except.noConfusion h
    · split at h
      · exact Except.noConfusion h
      · split at h
        · exact Except.noConfusion h
        · split at h
          · exact Except.noConfusion h
          · split at h
            · exact Except.noConfusion h
            · split at h
              · exact Except.noConfusion h
              · refine ih _ _ _ h (by rw [hseen, List.map_append]; simp) ?_
                rw [List.nodup_append]
                refine ⟨hnd, List.nodup_singleton _, ?_⟩
                intro a ha hb
                rw [List.mem_singleton.mp hb] at ha
                have hcontains : ¬seen.contains (strTrim s.id) = true := by assumption
                apply hcontains
                simpa using ha

theorem mergeLoop_qbit_reject (parseUrl : String → Option UrlM)
    (existing : List (String × String)) :
    ∀ (ss : List ConfigUpdateServer) (seen : List String)
      (out : List ServerConfig),
    (∃ s ∈ ss, s.kind = BackendType.qbit ∧ strTrim s.username = "" ∧
      mergedPassword existing s = "") →
    ∀ res, mergeLoop parseUrl existing ss seen out ≠ Except.ok res := by
  intro ss
  induction ss with
  | nil =>
    intro seen out hex res
    obtain ⟨s, hs, _⟩ := hex
    exact absurd hs (List.not_mem_nil s)
  | cons s rest ih =>
    intro seen out hex res hok
    unfold mergeLoop at hok
    dsimp only at hok
    split at hok
    · exact Except.noConfusion hok
    · split at hok
      · exact Except.noConfusion hok
      · split at hok
        · exact Except.noConfusion hok
        · split at hok
          · exact Except.noConfusion hok
          · split at hok
            · exact Except.noConfusion hok
            · split at hok
              · exact Except.noConfusion hok
              · have hnq : ¬(s.kind = BackendType.qbit ∧ strTrim s.username = "" ∧
                    mergedPassword existing s = "") := by assumption
                obtain ⟨s', hs', hprops⟩ := hex
                rcases List.mem_cons.mp hs' with hh | hh
                · subst hh
                  exact hnq ⟨hprops.1, hprops.2.1, hprops.2.2⟩
                · exact ih _ _ ⟨s', hh, hprops⟩ res hok

theorem alookup_existingPasswords (cat : Catalog) (id : String) (pw : String) :
    alookup id (existingPasswords cat) = some pw ↔
      ∃ e, alookup id cat.servers = some e ∧ e.cfg.password = pw := by
  unfold existingPasswords
  induction cat.servers with
  | nil => simp [alookup]
  | cons p rest ih =>
    obtain ⟨k, e⟩ := p
    by_cases hk : k = id
    · subst hk
      simp [alookup]
    · simp only [List.map_cons, alookup, if_neg hk]
      exact ih

/-- Claim C4: in a config update the stored password for a submitted
server is the previously stored one when the `password` field is omitted
(or null), and the (trimmed) submitted value — including the explicit
empty string, which clears it — when present; a Kind-A server whose
merged username and password are both empty makes the whole update return
400 with the state unchanged. -/
theorem C4_password_merge (parseUrl : String → Option UrlM) (st : GwState)
    (chunks : List (Except Unit (List Nat))) (fs : FsOracle)
    (req : ConfigUpdateRequest) :
    (∀ res, mergeLoop parseUrl (existingPasswords st.catalog) req.servers [] [] =
        Except.ok res →
      (res.map (fun sc => sc.id)).Nodup ∧
      ∀ s ∈ req.servers, ∃ sc ∈ res, sc.id = strTrim s.id ∧
        sc.password = (match s.password with
          | none => (alookup (strTrim s.id) (existingPasswords st.catalog)).getD ""
          | some v => strTrim v)) ∧
    (∀ id pw, alookup id (existingPasswords st.catalog) = some pw ↔
      ∃ e, alookup id st.catalog.servers = some e ∧ e.cfg.password = pw) ∧
    ((∃ s ∈ req.servers, s.kind = BackendType.qbit ∧ strTrim s.username = "" ∧
        mergedPassword (existingPasswords st.catalog) s = "") →
      (read_body_bytes chunks (64 * 1024)).isOk = true →
      handle_config_update parseUrl st chunks (Except.ok req) fs = (400, st)) := by
  refine ⟨?_, fun id pw => alookup_existingPasswords st.catalog id pw, ?_⟩
  · intro res hok
    obtain ⟨_, hall⟩ := mergeLoop_mem parseUrl _ req.servers [] [] res hok
    refine ⟨mergeLoop_nodup parseUrl _ req.servers [] [] res hok rfl List.nodup_nil, ?_⟩
    intro s hs
    obtain ⟨sc, hmem, hid, hpw, _, _⟩ := hall s hs
    refine ⟨sc, hmem, hid, ?_⟩
    rw [hpw]
    unfold mergedPassword
    cases s.password <;> rfl
  · intro hex hread
    obtain ⟨b, hb⟩ : ∃ b, read_body_bytes chunks (64 * 1024) = Except.ok b := by
      cases hcase : read_body_bytes chunks (64 * 1024) with
      | ok b => exact ⟨b, rfl⟩
      | error e =>
        rw [hcase] at hread
        simp [Except.isOk, Except.toBool] at hread
    unfold handle_config_update
    rw [hb]
    dsimp only
    cases hm : mergeLoop parseUrl (existingPasswords st.catalog) req.servers [] [] with
    | ok r => exact absurd hm (mergeLoop_qbit_reject parseUrl _ req.servers [] [] hex r)
    | error e =>
      unfold configMergePhase
      rw [hm]

/-- Witness for `C4_password_merge`: server `a` omits its password and
keeps the stored `"p"`; server `b` supplies the explicit empty string and
ends with an empty password. -/
theorem C4_password_merge_witness :
    mergeLoop urlFixture (existingPasswords catFixture)
      [⟨"a", "", BackendType.qbit, "http://h1:8080", "u", none⟩,
       ⟨"b", "", BackendType.trans, "http://h2:9091", "x", some ""⟩] [] [] =
      Except.ok
        [⟨"a", "a", BackendType.qbit, "http://h1:8080", "u", "p"⟩,
         ⟨"b", "b", BackendType.trans, "http://h2:9091", "x", ""⟩] ∧
    (([⟨"a", "a", BackendType.qbit, "http://h1:8080", "u", "p"⟩,
       ⟨"b", "b", BackendType.trans, "http://h2:9091", "x", ""⟩] :
        List ServerConfig).map (fun sc => sc.id)).Nodup ∧
    (∀ s ∈ ([⟨"a", "", BackendType.qbit, "http://h1:8080", "u", none⟩,
             ⟨"b", "", BackendType.trans, "http://h2:9091", "x", some ""⟩] :
        List ConfigUpdateServer),
      ∃ sc ∈ ([⟨"a", "a", BackendType.qbit, "http://h1:8080", "u", "p"⟩,
               ⟨"b", "b", BackendType.trans, "http://h2:9091", "x", ""⟩] :
          List ServerConfig), sc.id = strTrim s.id ∧
        sc.password = (match s.password with
          | none => (alookup (strTrim s.id) (existingPasswords catFixture)).getD ""
          | some v => strTrim v)) :=
  have h := (C4_password_merge urlFixture ⟨catFixture, []⟩ []
    ⟨true, true, true, true, Except.ok catFixture⟩
    ⟨"", [⟨"a", "", BackendType.qbit, "http://h1:8080", "u", none⟩,
          ⟨"b", "", BackendType.trans, "http://h2:9091", "x", some ""⟩]⟩).1
    [⟨"a", "a", BackendType.qbit, "http://h1:8080", "u", "p"⟩,
     ⟨"b", "b", BackendType.trans, "http://h2:9091", "x", ""⟩] (by decide)
  ⟨by decide, h.1, h.2⟩

theorem loadLoop_ok_shape (parseUrl : String → Option UrlM) :
    ∀ (ss : List ServerConfig) (acc : List (String × ServerEntry))
      (ord : List String) (a : List (String × ServerEntry)) (o : List String),
    loadLoop parseUrl ss acc ord = Except.ok (a, o) →
    o = ord ++ ss.map (fun s => strTrim s.id) ∧
    a.map Prod.fst = acc.map Prod.fst ++ ss.map (fun s => strTrim s.id) ∧
    (∀ p ∈ acc, p ∈ a) ∧
    (∀ s ∈ ss, ∃ e : ServerEntry, (strTrim s.id, e) ∈ a ∧
      e.cfg.id = strTrim s.id ∧
      e.cfg.name = (if strTrim s.name = "" then strTrim s.id else strTrim s.name) ∧
      e.cfg.kind = s.kind) := by
  intro ss
  induction ss with
  | nil =>
    intro acc ord a o h
    unfold loadLoop at h
    injection h with h'
    injection h' with ha ho
    subst ha
    subst ho
    exact ⟨by simp, by simp, fun p hp => hp, fun s hs => absurd hs (List.not_mem_nil s)⟩
  | cons s rest ih =>
    intro acc ord a o h
    unfold loadLoop at h
    dsimp only at h
    split at h
    · exact Except.noConfusion h
    · split at h
      · exact Except.noConfusion h
      · split at h
        · exact Except.noConfusion h
        · split at h
          · exact Except.noConfusion h
          · rename_i base heqbase
            split at h
            · exact Except.noConfusion h
            · obtain ⟨ho, hkeys, hsub, hall⟩ := ih _ _ _ _ h
              refine ⟨?_, ?_, ?_, ?_⟩
              · rw [ho, List.append_assoc]
                simp
              · rw [hkeys, List.map_append, List.append_assoc]
                simp
              · intro p hp
                exact hsub p (List.mem_append_left _ hp)
              · intro s' hs'
                rcases List.mem_cons.mp hs' with hh | hh
                · subst hh
                  refine ⟨⟨⟨strTrim s'.id,
                      (if strTrim s'.name = "" then strTrim s'.id else strTrim s'.name),
                      s'.kind, strTrim s'.base_url, strTrim s'.username,
                      strTrim s'.password⟩, base,
                      mkOrigin base.scheme (base.host.getD "") base.port⟩, ?_, rfl, rfl, rfl⟩
                  exact hsub _ (List.mem_append_right _ (List.mem_singleton.mpr rfl))
                · exact hall s' hh

theorem loadLoop_isOk_iff (parseUrl : String → Option UrlM)
    (hpe : parseUrl "" = none) :
    ∀ (ss : List ServerConfig) (acc : List (String × ServerEntry)) (ord : List String),
    (acc.map Prod.fst).Nodup →
    ((loadLoop parseUrl ss acc ord).isOk = true ↔
      ((∀ s ∈ ss, strTrim s.id ≠ "") ∧
       (∀ s ∈ ss, urlOk parseUrl (strTrim s.base_url)) ∧
       (acc.map Prod.fst ++ ss.map (fun s => strTrim s.id)).Nodup)) := by
  intro ss
  induction ss with
  | nil =>
    intro acc ord hnd
    simp [loadLoop, Except.isOk, Except.toBool, hnd]
  | cons s rest ih =>
    intro acc ord hnd
    unfold loadLoop
    dsimp only
    by_cases h1 : strTrim s.id = ""
    · rw [if_pos h1]
      refine iff_of_false (fun hcon => Bool.noConfusion hcon) ?_
      rintro ⟨ha, -, -⟩
      exact ha s (List.mem_cons_self s rest) h1
    · rw [if_neg h1]
      by_cases h2 : strTrim s.base_url = ""
      · rw [if_pos h2]
        refine iff_of_false (fun hcon => Bool.noConfusion hcon) ?_
        rintro ⟨-, hu, -⟩
        obtain ⟨m, hm, -, -⟩ := hu s (List.mem_cons_self s rest)
        rw [h2, hpe] at hm
        exact Option.noConfusion hm
      · rw [if_neg h2]
        by_cases h3 : (alookup (strTrim s.id) acc).isSome = true
        · rw [if_pos h3]
          refine iff_of_false (fun hcon => Bool.noConfusion hcon) ?_
          rintro ⟨-, -, hnd2⟩
          obtain ⟨-, -, hdisj⟩ := List.nodup_append.mp hnd2
          exact hdisj (alookup_isSome_iff.mp h3) (by simp)
        · rw [if_neg h3]
          cases hp : parseUrl (strTrim s.base_url) with
          | none =>
            refine iff_of_false (fun hcon => Bool.noConfusion hcon) ?_
            rintro ⟨-, hu, -⟩
            obtain ⟨m, hm, -, -⟩ := hu s (List.mem_cons_self s rest)
            rw [hp] at hm
            exact Option.noConfusion hm
          | some u =>
            dsimp only
            by_cases h4 : u.scheme = "" ∨ u.host = none
            · rw [if_pos h4]
              refine iff_of_false (fun hcon => Bool.noConfusion hcon) ?_
              rintro ⟨-, hu, -⟩
              obtain ⟨m, hm, hms, hmh⟩ := hu s (List.mem_cons_self s rest)
              rw [hp] at hm
              injection hm with hm'
              subst hm'
              rcases h4 with h4 | h4
              · exact hms h4
              · exact hmh h4
            · rw [if_neg h4]
              have hid_notin : strTrim s.id ∉ acc.map Prod.fst := fun hmem =>
                h3 (alookup_isSome_iff.mpr hmem)
              refine (ih _ _ ?_).trans ?_
              · simp only [List.map_append, List.map_cons, List.map_nil]
                rw [List.nodup_append]
                refine ⟨hnd, List.nodup_singleton _, ?_⟩
                intro x hx hx2
                rw [List.mem_singleton.mp hx2] at hx
                exact hid_notin hx
              · constructor
                · rintro ⟨ha, hu, hnd2⟩
                  refine ⟨?_, ?_, ?_⟩
                  · intro s' hs'
                    rcases List.mem_cons.mp hs' with hh | hh
                    · subst hh
                      exact h1
                    · exact ha s' hh
                  · intro s' hs'
                    rcases List.mem_cons.mp hs' with hh | hh
                    · subst hh
                      exact ⟨u, hp, fun hs2 => h4 (Or.inl hs2), fun hh2 => h4 (Or.inr hh2)⟩
                    · exact hu s' hh
                  · simp only [List.map_append, List.map_cons, List.map_nil] at hnd2
                    rw [List.append_assoc, List.singleton_append] at hnd2
                    simpa using hnd2
                · rintro ⟨ha, hu, hnd2⟩
                  refine ⟨fun s' hs' => ha s' (List.mem_cons_of_mem _ hs'),
                    fun s' hs' => hu s' (List.mem_cons_of_mem _ hs'), ?_⟩
                  simp only [List.map_append, List.map_cons, List.map_nil]
                  rw [List.append_assoc, List.singleton_append]
                  simpa using hnd2

/-- Claim C5: `Catalog.load` succeeds exactly when the server list is
non-empty, every id is non-empty after trimming and unique, every baseUrl
parses with a non-empty scheme and a host, and a non-empty (trimmed)
defaultServerId names a listed id; on success the order is the trimmed
ids in document order, an unspecified defaultServerId becomes the first
entry, a specified one is kept, and each entry's name defaults to its id
when empty. -/
theorem C5_catalog_load (parseUrl : String → Option UrlM)
    (hpe : parseUrl "" = none) (cfg : ConfigFile) :
    ((Catalog.load parseUrl cfg).isOk = true ↔
      (cfg.servers ≠ [] ∧
       (∀ s ∈ cfg.servers, strTrim s.id ≠ "") ∧
       (cfg.servers.map (fun s => strTrim s.id)).Nodup ∧
       (∀ s ∈ cfg.servers, urlOk parseUrl (strTrim s.base_url)) ∧
       (strTrim cfg.default_server_id ≠ "" →
         strTrim cfg.default_server_id ∈ cfg.servers.map (fun s => strTrim s.id)))) ∧
    (∀ cat, Catalog.load parseUrl cfg = Except.ok cat →
      cat.order = cfg.servers.map (fun s => strTrim s.id) ∧
      (strTrim cfg.default_server_id = "" → cat.default_id = cat.order.headD "") ∧
      (strTrim cfg.default_server_id ≠ "" →
        cat.default_id = strTrim cfg.default_server_id) ∧
      (∀ s ∈ cfg.servers, ∃ e, alookup (strTrim s.id) cat.servers = some e ∧
        e.cfg.id = strTrim s.id ∧
        e.cfg.name = (if strTrim s.name = "" then strTrim s.id else strTrim s.name))) := by
  constructor
  · unfold Catalog.load
    by_cases hempty : cfg.servers = []
    · rw [if_pos hempty]
      refine iff_of_false (fun hcon => Bool.noConfusion hcon) ?_
      rintro ⟨hne, -, -, -, -⟩
      exact hne hempty
    · rw [if_neg hempty]
      dsimp only
      cases hl : loadLoop parseUrl cfg.servers [] [] with
      | error e =>
        refine iff_of_false (fun hcon => Bool.noConfusion hcon) ?_
        rintro ⟨-, ha, hnd, hu, -⟩
        have hok := (loadLoop_isOk_iff parseUrl hpe cfg.servers [] []
          List.nodup_nil).mpr ⟨ha, hu, by simpa using hnd⟩
        rw [hl] at hok
        exact Bool.noConfusion hok
      | ok p =>
        obtain ⟨a, o⟩ := p
        dsimp only
        obtain ⟨ho, hkeys, -, hall⟩ := loadLoop_ok_shape parseUrl cfg.servers [] [] a o hl
        obtain ⟨ha, hu, hnd⟩ := (loadLoop_isOk_iff parseUrl hpe cfg.servers [] []
          List.nodup_nil).mp (by rw [hl]; rfl)
        by_cases hd : strTrim cfg.default_server_id = ""
        · rw [if_pos hd]
          refine iff_of_true rfl
            ⟨hempty, ha, by simpa using hnd, hu, fun hcon => absurd hd hcon⟩
        · rw [if_neg hd]
          by_cases hds : (alookup (strTrim cfg.default_server_id) a).isSome = true
          · rw [if_pos hds]
            refine iff_of_true rfl ⟨hempty, ha, by simpa using hnd, hu, fun _ => ?_⟩
            have hmem := alookup_isSome_iff.mp hds
            rw [hkeys] at hmem
            simpa using hmem
          · rw [if_neg hds]
            refine iff_of_false (fun hcon => Bool.noConfusion hcon) ?_
            rintro ⟨-, -, -, -, hdef⟩
            refine hds (alookup_isSome_iff.mpr ?_)
            rw [hkeys]
            simpa using hdef hd
  · intro cat hcat
    unfold Catalog.load at hcat
    by_cases hempty : cfg.servers = []
    · rw [if_pos hempty] at hcat
      exact Except.noConfusion hcat
    · rw [if_neg hempty] at hcat
      dsimp only at hcat
      cases hl : loadLoop parseUrl cfg.servers [] [] with
      | error e =>
        rw [hl] at hcat
        exact Except.noConfusion hcat
      | ok p =>
        obtain ⟨a, o⟩ := p
        rw [hl] at hcat
        dsimp only at hcat
        obtain ⟨ho, hkeys, -, hall⟩ := loadLoop_ok_shape parseUrl cfg.servers [] [] a o hl
        obtain ⟨-, -, hnd⟩ := (loadLoop_isOk_iff parseUrl hpe cfg.servers [] []
          List.nodup_nil).mp (by rw [hl]; rfl)
        have hndk : (a.map Prod.fst).Nodup := by
          rw [hkeys]
          simpa using hnd
        have hnames : ∀ s ∈ cfg.servers, ∃ e, alookup (strTrim s.id) a = some e ∧
            e.cfg.id = strTrim s.id ∧
            e.cfg.name = (if strTrim s.name = "" then strTrim s.id else strTrim s.name) := by
          intro s hs
          obtain ⟨e, hmem, hid, hname, -⟩ := hall s hs
          exact ⟨e, alookup_eq_some_of_mem_nodup hmem hndk, hid, hname⟩
        by_cases hd : strTrim cfg.default_server_id = ""
        · rw [if_pos hd] at hcat
          injection hcat with hcat'
          subst hcat'
          exact ⟨by simpa using ho, fun _ => rfl, fun hcon => absurd hd hcon, hnames⟩
        · rw [if_neg hd] at hcat
          by_cases hds : (alookup (strTrim cfg.default_server_id) a).isSome = true
          · rw [if_pos hds] at hcat
            injection hcat with hcat'
            subst hcat'
            exact ⟨by simpa using ho, fun hcon => absurd hcon hd, fun _ => rfl, hnames⟩
          · rw [if_neg hds] at hcat
            exact Except.noConfusion hcat

/-- Witness for `C5_catalog_load` on the fixture parser and document. -/
theorem C5_catalog_load_witness :
    urlFixture "" = none ∧
    (∀ cat, Catalog.load urlFixture cfgFixture = Except.ok cat →
      cat.order = cfgFixture.servers.map (fun s => strTrim s.id) ∧
      (strTrim cfgFixture.default_server_id = "" → cat.default_id = cat.order.headD "") ∧
      (strTrim cfgFixture.default_server_id ≠ "" →
        cat.default_id = strTrim cfgFixture.default_server_id) ∧
      (∀ s ∈ cfgFixture.servers, ∃ e, alookup (strTrim s.id) cat.servers = some e ∧
        e.cfg.id = strTrim s.id ∧
        e.cfg.name = (if strTrim s.name = "" then strTrim s.id else strTrim s.name))) ∧
    (Catalog.load urlFixture cfgFixture).isOk = true :=
  have h := C5_catalog_load urlFixture rfl cfgFixture
  ⟨rfl, h.2, by decide⟩

end TorrentMix
